import Mathlib

/-
A shallow embedding of the CherryScript language core, translated from
`cherryscript/parser.py` (statement splitting, call parsing, comma splitting)
and `cherryscript/runtime/interpreter.py` (the string-driven expression
evaluator and statement executor), together with theorems settling the
claims of the specification against it.

Conventions of the embedding:
  * Python strings are `List Char` (`Str` below); slicing, `strip`,
    `startswith` and the hand-written regex scanners of the source are
    translated to recursive functions on character lists.
  * Python runtime values are `Value`.  Lists and dicts are mutable objects
    in Python, so they are represented by addresses into heaps carried in
    the interpreter state `St`; a shallow `dict(self.env)` copy of the
    environment copies bindings but not heap cells, exactly as in CPython.
  * Exceptions become explicit result values: `StmtRes.err` for a raised
    exception (`CherryRuntimeError`, `TypeError`, ...), `StmtRes.ret` for
    the `_ReturnSignal` control-flow exception.  `_BreakSignal` and
    `_ContinueSignal` are declared in the source but nothing ever raises
    them, so they have no representation here.
  * The interpreter's mutually recursive procedures are embedded as one
    fuel-indexed function `interp` over a request type `Req`; `none` means
    the fuel budget was exhausted, which has no counterpart in the source
    and never occurs in any theorem below.
  * Host floating point (float literals, true division `/`, `time()`,
    `format()` with a non-default spec) and the external collaborator
    adapters (`connect`, `h2o.*`, `deploy`, `Database`/`Frame`/`Model`
    handles) are outside the embedding: those branches are kept in source
    order but produce a designated error value, and no claim touches them.
-/

namespace Cherry

/-- Characters that are awkward to write literally under the file's
lexical conventions are named. -/
def qDouble : Char := Char.ofNat 34

/-- The single-quote character. -/
def qSingle : Char := Char.ofNat 39

/-- The backtick (template-string quote) character. -/
def qBack : Char := Char.ofNat 96

/-- The backslash character. -/
def bslash : Char := Char.ofNat 92

/-- The opening-brace character. -/
def lbrace : Char := Char.ofNat 123

/-- The closing-brace character. -/
def rbrace : Char := Char.ofNat 125

/-- Python strings are modelled as lists of characters. -/
abbrev Str := List Char

/-- Python `str.isspace` / the `\s` class for the ASCII whitespace used by
`str.strip()` and the `\s` of the source's regexes. -/
def isPySpace (c : Char) : Bool :=
  c == ' ' || c == '\t' || c == '\n' || c == '\r' || c == '\x0b' || c == '\x0c'

/-- Python `str.lstrip()`. -/
def pyLStrip (s : Str) : Str := s.dropWhile isPySpace

/-- Python `str.rstrip()`. -/
def pyRStrip (s : Str) : Str := (s.reverse.dropWhile isPySpace).reverse

/-- Python `str.strip()`. -/
def pyStrip (s : Str) : Str := pyRStrip (pyLStrip s)

/-- Python `str.startswith(p)`. -/
def hasPre : Str → Str → Bool
  | _, [] => true
  | [], _ :: _ => false
  | c :: cs, p :: ps => c == p && hasPre cs ps

/-- Python `s.endswith(c)` for a single character `c`. -/
def endsWithChar (c : Char) (s : Str) : Bool := s.getLast? == some c

/-- The `[a-zA-Z_]` class of the source's identifier regexes. -/
def isIdentStart (c : Char) : Bool := c.isAlpha || c == '_'

/-- The `[a-zA-Z0-9_]` class of the source's identifier regexes. -/
def isIdentChar (c : Char) : Bool := c.isAlphanum || c == '_'

/-- The `\w` class (word character), used for the `\b` boundary in
`^return\b`. -/
def isWordChar (c : Char) : Bool := c.isAlphanum || c == '_'

/-- Match `[a-zA-Z_][a-zA-Z0-9_]*` at the front of `s`, returning the
identifier and the rest. -/
def matchIdent (s : Str) : Option (Str × Str) :=
  match s with
  | [] => none
  | c :: cs =>
    if isIdentStart c then
      some (c :: cs.takeWhile isIdentChar, cs.dropWhile isIdentChar)
    else none

/-- Match `[a-zA-Z_][a-zA-Z0-9_.]*` (an identifier that may contain dots,
used by the call regexes) at the front of `s`. -/
def matchIdentDots (s : Str) : Option (Str × Str) :=
  match s with
  | [] => none
  | c :: cs =>
    if isIdentStart c then
      some (c :: cs.takeWhile (fun d => isIdentChar d || d == '.'),
            cs.dropWhile (fun d => isIdentChar d || d == '.'))
    else none

/-- The three string-quote characters recognized throughout the source:
`'"'`, `"'"` and the backtick. -/
def isQuote (c : Char) : Bool := c == qDouble || c == qSingle || c == qBack

/-- First index of character `c` in `s` (Python `s.index(c)`), if any. -/
def indexOfChar (c : Char) : Str → Option Nat
  | [] => none
  | d :: ds => if d == c then some 0 else (indexOfChar c ds).map (· + 1)

/-- Python `s.split(sep)` for a single-character separator. -/
def splitOnChar (c : Char) (s : Str) : List Str :=
  match s with
  | [] => [[]]
  | d :: ds =>
    let rest := splitOnChar c ds
    if d == c then [] :: rest
    else
      match rest with
      | [] => [[d]]
      | r :: rs => (d :: r) :: rs

/-- Does `pat` occur as a contiguous substring of `s`?  (Python `pat in s`.) -/
def containsSub (pat : Str) : Str → Bool
  | [] => hasPre [] pat
  | c :: cs => hasPre (c :: cs) pat || containsSub pat cs

/-! ### `cherryscript/parser.py` -/

/-- Skip to the end of a `// ...` line comment: drop up to and including the
next newline (`while i < len(text) and text[i] != chr(10): i += 1` followed by
consuming the newline). -/
def skipLineComment (s : Str) : Str :=
  match s.dropWhile (fun c => !(c == '\n')) with
  | [] => []
  | _ :: rest => rest

/-- Skip a `/* ... */` block comment body: the source advances past the first
`*/`; if fewer than two characters remain before finding one, scanning stops
there and the main loop resumes at that position (so the final character of an
unterminated comment is processed normally). -/
def skipBlockComment : Str → Str
  | '*' :: '/' :: rest => rest
  | _ :: c :: rest => skipBlockComment (c :: rest)
  | rest => rest

/-- The `^for\s+` test guarding semicolons inside a C-style for header. -/
def startsForKw (s : Str) : Bool :=
  match s with
  | 'f' :: 'o' :: 'r' :: c :: _ => isPySpace c
  | _ => false

/-- One flush of the accumulated statement buffer: strip it and append it to
`parts` when non-empty.  `cur` is accumulated in reverse. -/
def flushCur (parts : List Str) (cur : Str) : List Str :=
  let stmt := pyStrip cur.reverse
  if stmt.isEmpty then parts else parts ++ [stmt]

/-- Main loop of `split_statements`, translated state for state: `inQ`/`qc`
track string literals, `depth` the brace/bracket/paren nesting (clamped at
zero on closers), `prev` the previous raw character (for the backslash-escape
check), `cur` the pending statement text in reverse, `parts` the finished
statements.  Fuel is the remaining character count plus one; every step
consumes at least one character so the fuel never runs out. -/
def splitStmtsAux : Nat → Bool → Option Char → Nat → Option Char →
    Str → List Str → Str → List Str
  | 0, _, _, _, _, cur, parts, _ => flushCur parts cur -- unreachable: fuel ≥ length + 1
  | _ + 1, _, _, _, _, cur, parts, [] => flushCur parts cur
  | fu + 1, inQ, qc, depth, prev, cur, parts, c :: rest =>
    if isQuote c then
      if !inQ then
        splitStmtsAux fu true (some c) depth (some c) (c :: cur) parts rest
      else if qc == some c then
        if prev == some bslash then
          splitStmtsAux fu inQ qc depth (some c) (c :: cur) parts rest
        else
          splitStmtsAux fu false none depth (some c) (c :: cur) parts rest
      else
        splitStmtsAux fu inQ qc depth (some c) (c :: cur) parts rest
    else if !inQ && (c == lbrace || c == '[' || c == '(') then
      splitStmtsAux fu inQ qc (depth + 1) (some c) (c :: cur) parts rest
    else if !inQ && (c == rbrace || c == ']' || c == ')') then
      splitStmtsAux fu inQ qc (depth - 1) (some c) (c :: cur) parts rest
    else if !inQ && depth == 0 && c == '/' && hasPre rest ['/'] then
      splitStmtsAux fu inQ qc depth (some c) [] (flushCur parts cur)
        (skipLineComment rest)
    else if !inQ && depth == 0 && c == '/' && hasPre rest ['*'] then
      splitStmtsAux fu inQ qc depth (some c) cur parts
        (skipBlockComment (rest.drop 1))
    else if !inQ && depth == 0 && c == ';' then
      if startsForKw (pyStrip cur.reverse) then
        splitStmtsAux fu inQ qc depth (some c) (c :: cur) parts rest
      else
        splitStmtsAux fu inQ qc depth (some c) [] (flushCur parts cur) rest
    else if !inQ && depth == 0 && c == '\n' then
      splitStmtsAux fu inQ qc depth (some c) [] (flushCur parts cur) rest
    else
      splitStmtsAux fu inQ qc depth (some c) (c :: cur) parts rest

/-- `split_statements` from `cherryscript/parser.py`: split source text into
statement strings, respecting quotes, nesting depth and comments.  Note that
it raises no exception on any input: closing delimiters below depth zero are
clamped (`depth = max(0, depth - 1)`), and any unterminated string or
trailing text is flushed as a final statement. -/
def split_statements (text : Str) : List Str :=
  if (pyStrip text).isEmpty then []
  else splitStmtsAux (text.length + 1) false none 0 none [] [] text

/-- Loop of `_split_by_comma`: split at top-level commas, respecting quotes
and bracket depth (clamped at zero), dropping empty pieces. -/
def splitByCommaAux : Bool → Option Char → Nat → Option Char → Str →
    List Str → Str → List Str
  | _, _, _, _, cur, parts, [] =>
    let arg := pyStrip cur.reverse
    if arg.isEmpty then parts else parts ++ [arg]
  | inQ, qc, depth, prev, cur, parts, c :: rest =>
    if isQuote c then
      if !inQ then
        splitByCommaAux true (some c) depth (some c) (c :: cur) parts rest
      else if qc == some c && !(prev == some bslash) then
        splitByCommaAux false none depth (some c) (c :: cur) parts rest
      else
        splitByCommaAux inQ qc depth (some c) (c :: cur) parts rest
    else if !inQ && (c == '(' || c == '[' || c == lbrace) then
      splitByCommaAux inQ qc (depth + 1) (some c) (c :: cur) parts rest
    else if !inQ && (c == ')' || c == ']' || c == rbrace) then
      splitByCommaAux inQ qc (depth - 1) (some c) (c :: cur) parts rest
    else if !inQ && depth == 0 && c == ',' then
      let arg := pyStrip cur.reverse
      splitByCommaAux inQ qc depth (some c) []
        (if arg.isEmpty then parts else parts ++ [arg]) rest
    else
      splitByCommaAux inQ qc depth (some c) (c :: cur) parts rest

/-- `_split_by_comma` from `cherryscript/parser.py`. -/
def split_by_comma (s : Str) : List Str :=
  splitByCommaAux false none 0 none [] [] s

/-- Scanning loop of `parse_call`: find the position of the last `(` seen at
paren depth zero (the source overwrites `paren_pos` each time depth zero is
re-entered), failing (`ParseError`) if the depth ever goes negative or does
not return to zero. -/
def parseCallScan : Bool → Option Char → Option Char → Int → Option Nat →
    Nat → Str → Option (Option Nat)
  | _, _, _, depth, pos, _, [] =>
    if depth == 0 then some pos else none
  | inQ, qc, prev, depth, pos, i, c :: rest =>
    if isQuote c then
      if !inQ then
        parseCallScan true (some c) (some c) depth pos (i + 1) rest
      else if qc == some c && !(prev == some bslash) then
        parseCallScan false none (some c) depth pos (i + 1) rest
      else
        parseCallScan inQ qc (some c) depth pos (i + 1) rest
    else if !inQ && c == '(' then
      parseCallScan inQ qc (some c) (depth + 1)
        (if depth == 0 then some i else pos) (i + 1) rest
    else if !inQ && c == ')' then
      if depth - 1 < 0 then none
      else parseCallScan inQ qc (some c) (depth - 1) pos (i + 1) rest
    else
      parseCallScan inQ qc (some c) depth pos (i + 1) rest

/-- `parse_call` from `cherryscript/parser.py`: split `name(arg1, arg2, ...)`
into the callee name and the raw argument strings.  `none` models a raised
`ParseError`. -/
def parse_call (text : Str) : Option (Str × List Str) :=
  let text := pyStrip text
  if !(containsSub ['('] text) then none
  else
    match parseCallScan false none none 0 none 0 text with
    | none => none
    | some none => none
    | some (some parenPos) =>
      let name := pyStrip (text.take parenPos)
      let argsText := pyStrip ((text.drop (parenPos + 1)).dropLast)
      if argsText.isEmpty then some (name, [])
      else some (name, split_by_comma argsText)

end Cherry

namespace Cherry

/-! ### Runtime values and interpreter state -/

/-- The dynamic value domain of the interpreter: Python `None`, `bool`,
`int`, `str`, `list` and `dict`.  Lists and dicts are mutable objects, so a
`Value` holds an address into the corresponding heap of the state.  Host
floats and the collaborator handles (`Database`, `Frame`, `Model`,
`Endpoint`) are outside the embedding. -/
inductive Value where
  | null : Value
  | bool (b : Bool) : Value
  | int (n : Int) : Value
  | str (s : Str) : Value
  | arr (addr : Nat) : Value
  | dict (addr : Nat) : Value
deriving DecidableEq, Repr

/-- A user-defined function record: `{'params': [...], 'body': "..."}`. -/
structure FnDef where
  params : List Str
  body : Str
deriving DecidableEq, Repr

/-- The interpreter state: the `Runtime` object's `env` and `_functions`
dicts, the heaps backing list and dict objects, and the text printed to
standard output (one entry per `print(...)` call, in order). -/
structure St where
  env : List (Str × Value)
  funcs : List (Str × FnDef)
  arrs : List (List Value)
  dicts : List (List (Value × Value))
  out : List Str
deriving DecidableEq, Repr

/-- The empty state of a freshly constructed `Runtime`. -/
def St.init : St := ⟨[], [], [], [], []⟩

/-- Ordered-dict lookup (`d.get(k)` on a `str`-keyed Python dict). -/
def alGet (k : Str) : List (Str × Value) → Option Value
  | [] => none
  | (k', v) :: rest => if k' = k then some v else alGet k rest

/-- Ordered-dict update: overwrite in place if the key exists, else append
(CPython dict insertion-order semantics). -/
def alSet (k : Str) (v : Value) : List (Str × Value) → List (Str × Value)
  | [] => [(k, v)]
  | (k', v') :: rest =>
    if k' = k then (k, v) :: rest else (k', v') :: alSet k v rest

/-- Function-table lookup. -/
def fnGet (k : Str) : List (Str × FnDef) → Option FnDef
  | [] => none
  | (k', v) :: rest => if k' = k then some v else fnGet k rest

/-- Function-table update (registration overwrites). -/
def fnSet (k : Str) (v : FnDef) : List (Str × FnDef) → List (Str × FnDef)
  | [] => [(k, v)]
  | (k', v') :: rest =>
    if k' = k then (k, v) :: rest else (k', v') :: fnSet k v rest

/-- Read a list object from the heap. -/
def St.getArr (σ : St) (a : Nat) : List Value := (σ.arrs.get? a).getD []

/-- Overwrite a list object in the heap (in-place mutation). -/
def St.setArr (σ : St) (a : Nat) (l : List Value) : St :=
  { σ with arrs := σ.arrs.set a l }

/-- Allocate a fresh list object, returning its value. -/
def St.allocArr (σ : St) (l : List Value) : St × Value :=
  ({ σ with arrs := σ.arrs ++ [l] }, .arr σ.arrs.length)

/-- Read a dict object from the heap. -/
def St.getDict (σ : St) (a : Nat) : List (Value × Value) :=
  (σ.dicts.get? a).getD []

/-- Allocate a fresh dict object, returning its value. -/
def St.allocDict (σ : St) (l : List (Value × Value)) : St × Value :=
  ({ σ with dicts := σ.dicts ++ [l] }, .dict σ.dicts.length)

/-- Append to the printed output. -/
def St.print (σ : St) (line : Str) : St := { σ with out := σ.out ++ [line] }

/-- Python truthiness, as used by `if self._eval(cond):`, `not`, `and`/`or`
short-circuiting and `sum`'s `if v` test: `None`, `False`, zero, empty
string, empty list and empty dict are falsy. -/
def truthy (σ : St) : Value → Bool
  | .null => false
  | .bool b => b
  | .int n => !(n == 0)
  | .str s => !s.isEmpty
  | .arr a => !(σ.getArr a).isEmpty
  | .dict a => !(σ.getDict a).isEmpty

/-- Is the value a Python `int` for `isinstance(x, int)` checks?  `bool` is
a subclass of `int` in Python, so `True`/`False` count. -/
def isIntInst : Value → Bool
  | .int _ => true
  | .bool _ => true
  | _ => false

/-- The numeric content of an `int`-instance (with `True == 1`,
`False == 0`). -/
def asNum : Value → Option Int
  | .int n => some n
  | .bool b => some (if b then 1 else 0)
  | _ => none

/-- Result of a host comparison: a boolean, a raised `TypeError`, or fuel
exhaustion of the embedding (never reached by the theorems below). -/
inductive CmpRes where
  | ok (b : Bool) : CmpRes
  | typeErr : CmpRes
  | fuelOut : CmpRes
deriving DecidableEq, Repr


/-- Lexicographic comparison of character lists (Python `str` ordering by
code point). -/
def compareStrs : Str → Str → Ordering
  | [], [] => .eq
  | [], _ :: _ => .lt
  | _ :: _, [] => .gt
  | c :: cs, d :: ds =>
    match compare c.val d.val with
    | .eq => compareStrs cs ds
    | o => o

/-- Requests of the host-comparison evaluator `cmpAux` (Python `==` and `<`
recurse through lists and dicts, so the mutually recursive loops are folded
into one fuel-indexed function). -/
inductive CmpReq where
  | eqv (a b : Value)
  | eqList (x y : List Value)
  | eqEntries (d1 d2 : List (Value × Value))
  | lookupK (k : Value) (d : List (Value × Value))
  | ordv (a b : Value)
  | ordList (x y : List Value)

/-- Answers of `cmpAux`. -/
inductive CmpAns where
  | b (x : Bool)
  | look (v : Option Value)
  | ord (o : Option Ordering)
deriving DecidableEq, Repr

/-- Host comparison semantics on the value domain, by fuel recursion.
`eqv` is Python `==`: numbers compare numerically (`bool` is an `int`
subclass), strings by characters, lists elementwise through the heap, dicts
as unordered key/value maps, and different kinds are simply unequal.
`ordv` is Python `<`-style three-way ordering: defined within numbers,
strings and lists; every other pairing yields `.ord none`, the raised
`TypeError`. -/
def cmpAux : Nat → St → CmpReq → Option CmpAns
  | 0, _, _ => none
  | fu + 1, σ, req =>
    match req with
    | .eqv a b =>
      match a, b with
      | .null, .null => some (.b true)
      | _, _ =>
        match asNum a, asNum b with
        | some x, some y => some (.b (x == y))
        | _, _ =>
          match a, b with
          | .str x, .str y => some (.b (x == y))
          | .arr x, .arr y => cmpAux fu σ (.eqList (σ.getArr x) (σ.getArr y))
          | .dict x, .dict y =>
            if (σ.getDict x).length ≠ (σ.getDict y).length then
              some (.b false)
            else cmpAux fu σ (.eqEntries (σ.getDict x) (σ.getDict y))
          | _, _ => some (.b false)
    | .eqList x y =>
      match x, y with
      | [], [] => some (.b true)
      | [], _ :: _ => some (.b false)
      | _ :: _, [] => some (.b false)
      | a :: as', b :: bs =>
        match cmpAux fu σ (.eqv a b) with
        | some (.b true) => cmpAux fu σ (.eqList as' bs)
        | some (.b false) => some (.b false)
        | _ => none
    | .eqEntries d1 d2 =>
      match d1 with
      | [] => some (.b true)
      | (k, v) :: rest =>
        match cmpAux fu σ (.lookupK k d2) with
        | some (.look none) => some (.b false)
        | some (.look (some v')) =>
          match cmpAux fu σ (.eqv v v') with
          | some (.b true) => cmpAux fu σ (.eqEntries rest d2)
          | some (.b false) => some (.b false)
          | _ => none
        | _ => none
    | .lookupK k d =>
      match d with
      | [] => some (.look none)
      | (k', v) :: rest =>
        match cmpAux fu σ (.eqv k k') with
        | some (.b true) => some (.look (some v))
        | some (.b false) => cmpAux fu σ (.lookupK k rest)
        | _ => none
    | .ordv a b =>
      match asNum a, asNum b with
      | some x, some y => some (.ord (some (compare x y)))
      | _, _ =>
        match a, b with
        | .str x, .str y => some (.ord (some (compareStrs x y)))
        | .arr x, .arr y => cmpAux fu σ (.ordList (σ.getArr x) (σ.getArr y))
        | _, _ => some (.ord none)
    | .ordList x y =>
      match x, y with
      | [], [] => some (.ord (some .eq))
      | [], _ :: _ => some (.ord (some .lt))
      | _ :: _, [] => some (.ord (some .gt))
      | a :: as', b :: bs =>
        match cmpAux fu σ (.eqv a b) with
        | some (.b true) => cmpAux fu σ (.ordList as' bs)
        | some (.b false) => cmpAux fu σ (.ordv a b)
        | _ => none

/-- Python `==` on values (possibly heap-recursive). -/
def pyEq (fu : Nat) (σ : St) (a b : Value) : Option Bool :=
  match cmpAux fu σ (.eqv a b) with
  | some (.b x) => some x
  | _ => none

/-- Python three-way ordering on values; inner `none` is a `TypeError`. -/
def pyOrd (fu : Nat) (σ : St) (a b : Value) : Option (Option Ordering) :=
  match cmpAux fu σ (.ordv a b) with
  | some (.ord o) => some o
  | _ => none

/-- `_compare` from the interpreter: dispatch on the operator text, with a
raised `TypeError` caught and turned into `False`.  (`==`/`!=` never raise
`TypeError` in the host; the ordering operators do for mismatched kinds.) -/
def pyCompare (fu : Nat) (σ : St) (lhs rhs : Value) (op : Str) : CmpRes :=
  if op = "==".data then
    match pyEq fu σ lhs rhs with
    | none => .fuelOut
    | some b => .ok b
  else if op = "!=".data then
    match pyEq fu σ lhs rhs with
    | none => .fuelOut
    | some b => .ok !b
  else if op = ">".data then
    match pyOrd fu σ lhs rhs with
    | none => .fuelOut
    | some none => .ok false
    | some (some o) => .ok (o == .gt)
  else if op = "<".data then
    match pyOrd fu σ lhs rhs with
    | none => .fuelOut
    | some none => .ok false
    | some (some o) => .ok (o == .lt)
  else if op = ">=".data then
    match pyOrd fu σ lhs rhs with
    | none => .fuelOut
    | some none => .ok false
    | some (some o) => .ok (!(o == .lt))
  else if op = "<=".data then
    match pyOrd fu σ lhs rhs with
    | none => .fuelOut
    | some none => .ok false
    | some (some o) => .ok (!(o == .gt))
  else .ok false

end Cherry

namespace Cherry

/-! ### Host string conversion (`str()` / `repr()`) -/

/-- Decimal digit character. -/
def digitChar (n : Nat) : Char := Char.ofNat (48 + n)

/-- Decimal digits of a natural number (fuel-bounded division loop). -/
def natToStrAux : Nat → Nat → Str
  | 0, _ => []
  | fu + 1, n =>
    if n < 10 then [digitChar n]
    else natToStrAux fu (n / 10) ++ [digitChar (n % 10)]

/-- Python `str(n)` for a natural number. -/
def natToStr (n : Nat) : Str := natToStrAux (n + 1) n

/-- Python `str(n)` for an integer. -/
def intToStr (n : Int) : Str :=
  if n < 0 then '-' :: natToStr n.natAbs else natToStr n.natAbs

/-- Requests for the host `str()`/`repr()` conversion, which recurses
through list and dict objects. -/
inductive ShowReq where
  | sv (x : Value)
  | rv (x : Value)
  | relems (l : List Value)
  | rpairs (l : List (Value × Value))

/-- Host `str()`/`repr()` on the value domain.  `str()` of a container uses
`repr()` of the elements.  `repr()` of a string is approximated by wrapping
in single quotes without escape processing (no claim prints a string inside
a container). -/
def showAux : Nat → St → ShowReq → Option Str
  | 0, _, _ => none
  | fu + 1, σ, req =>
    match req with
    | .sv x =>
      match x with
      | .null => some "None".data
      | .bool b => some (if b then "True".data else "False".data)
      | .int n => some (intToStr n)
      | .str s => some s
      | .arr a =>
        match showAux fu σ (.relems (σ.getArr a)) with
        | none => none
        | some body => some ('[' :: body ++ [']'])
      | .dict d =>
        match showAux fu σ (.rpairs (σ.getDict d)) with
        | none => none
        | some body => some (lbrace :: body ++ [rbrace])
    | .rv x =>
      match x with
      | .str s => some (qSingle :: s ++ [qSingle])
      | _ => showAux fu σ (.sv x)
    | .relems l =>
      match l with
      | [] => some []
      | [x] => showAux fu σ (.rv x)
      | x :: rest =>
        match showAux fu σ (.rv x), showAux fu σ (.relems rest) with
        | some hd, some tl => some (hd ++ ", ".data ++ tl)
        | _, _ => none
    | .rpairs l =>
      match l with
      | [] => some []
      | [(k, v)] =>
        match showAux fu σ (.rv k), showAux fu σ (.rv v) with
        | some ks, some vs' => some (ks ++ ": ".data ++ vs')
        | _, _ => none
      | (k, v) :: rest =>
        match showAux fu σ (.rv k), showAux fu σ (.rv v),
              showAux fu σ (.rpairs rest) with
        | some ks, some vs', some tl =>
          some (ks ++ ": ".data ++ vs' ++ ", ".data ++ tl)
        | _, _, _ => none

/-- Python `str(v)`. -/
def pyStrOf (fu : Nat) (σ : St) (v : Value) : Option Str :=
  showAux fu σ (.sv v)

/-! ### Host arithmetic on the value domain

Each operation returns `none` for a raised host exception (`TypeError`,
`ZeroDivisionError`, or an excursion into host floats, which are outside
the embedding); the caller turns `none` into an evaluation error. -/

/-- Python `+` (without the evaluator's string-coercion special case):
numbers add (`bool` as `int`), strings and lists concatenate (a list
concatenation allocates a fresh object). -/
def pyAddPlain (σ : St) (a b : Value) : Option (St × Value) :=
  match asNum a, asNum b with
  | some x, some y => some (σ, .int (x + y))
  | _, _ =>
    match a, b with
    | .str x, .str y => some (σ, .str (x ++ y))
    | .arr x, .arr y =>
      some (σ.allocArr (σ.getArr x ++ σ.getArr y))
    | _, _ => none

/-- Python `-`: numbers only. -/
def pySub (σ : St) (a b : Value) : Option (St × Value) :=
  match asNum a, asNum b with
  | some x, some y => some (σ, .int (x - y))
  | _, _ => none

/-- Repeat a string `n` times (Python `s * n`, empty for `n ≤ 0`). -/
def repeatStr (s : Str) (n : Int) : Str :=
  (List.replicate n.toNat s).flatten

/-- Python `*`: numbers multiply, a string or list times an `int` instance
repeats (a repeated list is a fresh object). -/
def pyMulPlain (σ : St) (a b : Value) : Option (St × Value) :=
  match asNum a, asNum b with
  | some x, some y => some (σ, .int (x * y))
  | _, _ =>
    match a, b with
    | .str s, _ =>
      match asNum b with
      | some n => some (σ, .str (repeatStr s n))
      | none => none
    | _, .str s =>
      match asNum a with
      | some n => some (σ, .str (repeatStr s n))
      | none => none
    | .arr x, _ =>
      match asNum b with
      | some n => some (σ.allocArr ((List.replicate n.toNat (σ.getArr x)).flatten))
      | none => none
    | _, .arr y =>
      match asNum a with
      | some n => some (σ.allocArr ((List.replicate n.toNat (σ.getArr y)).flatten))
      | none => none
    | _, _ => none

/-- Python `//` (floor division); division by zero raises. -/
def pyFloorDiv (σ : St) (a b : Value) : Option (St × Value) :=
  match asNum a, asNum b with
  | some x, some y => if y == 0 then none else some (σ, .int (Int.fdiv x y))
  | _, _ => none

/-- Python `%` (sign follows the divisor); modulo by zero raises.  String
formatting with `%` is outside the embedding. -/
def pyMod (σ : St) (a b : Value) : Option (St × Value) :=
  match asNum a, asNum b with
  | some x, some y => if y == 0 then none else some (σ, .int (Int.fmod x y))
  | _, _ => none

/-- Python `**` on integers; a negative exponent would produce a host
float, which is outside the embedding. -/
def pyPow (σ : St) (a b : Value) : Option (St × Value) :=
  match asNum a, asNum b with
  | some x, some y => if y < 0 then none else some (σ, .int (x ^ y.toNat))
  | _, _ => none

/-- Python `int(v)` as used by `range` and loop counters: `int`/`bool`
directly, strings parsed as optionally signed decimals (with surrounding
whitespace); everything else raises. -/
def toIntStrict (v : Value) : Option Int :=
  match v with
  | .int n => some n
  | .bool b => some (if b then 1 else 0)
  | .str s =>
    let t := pyStrip s
    match t with
    | '-' :: ds => if !ds.isEmpty && ds.all Char.isDigit
        then some (-(ds.foldl (fun acc c => acc * 10 + (c.toNat - 48)) 0 : Nat) : Int)
        else none
    | '+' :: ds => if !ds.isEmpty && ds.all Char.isDigit
        then some ((ds.foldl (fun acc c => acc * 10 + (c.toNat - 48)) 0 : Nat) : Int)
        else none
    | ds => if !ds.isEmpty && ds.all Char.isDigit
        then some ((ds.foldl (fun acc c => acc * 10 + (c.toNat - 48)) 0 : Nat) : Int)
        else none
  | _ => none

/-- Build `list(range(a, a + step * n step))`. -/
def buildRange (a step : Int) : Nat → List Int
  | 0 => []
  | n + 1 => a :: buildRange (a + step) step n

/-- Python `list(range(a, b, step))`; a zero step raises. -/
def rangeList (a b step : Int) : Option (List Int) :=
  if step == 0 then none
  else
    let cnt : Int :=
      if step > 0 then Int.fdiv (b - a + step - 1) step
      else Int.fdiv (a - b + (-step) - 1) (-step)
    some (buildRange a step cnt.toNat)

/-- Fold of Python `min`/`max` over a sequence: strict comparison against
the accumulator, first value wins ties.  Inner `none` is the `TypeError` of
an unorderable pairing. -/
def minMaxFold (fu : Nat) (σ : St) (isMin : Bool) :
    Value → List Value → Option (Option Value)
  | acc, [] => some (some acc)
  | acc, x :: rest =>
    match pyOrd fu σ x acc with
    | none => none
    | some none => some none
    | some (some o) =>
      let acc' := if (if isMin then o == Ordering.lt else o == Ordering.gt)
        then x else acc
      minMaxFold fu σ isMin acc' rest

/-- Python `min(seq)` / `max(seq)`: empty sequences raise `ValueError`
(outer `some none` here), unorderable elements raise `TypeError` (also
`some none`; the two are not distinguished by any claim). -/
def minMaxOf (fu : Nat) (σ : St) (isMin : Bool) (l : List Value) :
    Option (Option Value) :=
  match l with
  | [] => some none
  | x :: rest => minMaxFold fu σ isMin x rest

end Cherry

namespace Cherry

/-! ### Scanners and matchers of `interpreter.py` -/

/-- Scan of `_is_str_literal`'s body: is there no unescaped occurrence of
quote `q` strictly inside the content?  (A backslash skips the following
character; a trailing backslash skips past the end, which the source
accepts.) -/
def isStrLitScan (q : Char) : Str → Bool
  | [] => true
  | c :: rest =>
    if c == bslash then
      match rest with
      | [] => true
      | _ :: r2 => isStrLitScan q r2
    else if c == q then false
    else isStrLitScan q rest

/-- `_is_str_literal`: the whole expression is one quoted string literal.
The first of `"`, `'`, backtick whose start/end/length test passes decides
the answer. -/
def is_str_literal (s : Str) : Bool :=
  let check : Char → Option Bool := fun q =>
    if hasPre s [q] && endsWithChar q s && decide (s.length ≥ 2) then
      some (isStrLitScan q ((s.drop 1).dropLast))
    else none
  (((check qDouble).or (check qSingle)).or (check qBack)).getD false

/-- `_unquote`: `s[1:-1]`. -/
def unquote (s : Str) : Str := (s.drop 1).dropLast

/-- The characters before which a `-` is treated as a unary sign by
`_find_binary_op` (after stripping the left operand). -/
def isSignPredecessor (c : Char) : Bool :=
  c == '+' || c == '-' || c == '*' || c == '/' || c == '(' || c == ',' || c == '='

/-- Scanning loop of `_find_binary_op`: track quotes (with escape check),
unclamped bracket depth, and the latest top-level match.  A single-character
operator records the match and keeps scanning (rightmost wins); a
multi-character operator returns at the first match.  A `-` whose left

context is empty or ends in an operator is skipped as a unary sign. -/
def findBinOpAux (expr op : Str) : Bool → Option Char → Int → Option Nat →
    Nat → Option Char → Str → Option Nat
  | _, _, _, last, _, _, [] => last
  | inQ, qc, depth, last, i, prev, c :: rest =>
    if isQuote c then
      if !inQ then
        findBinOpAux expr op true (some c) depth last (i + 1) (some c) rest
      else if qc == some c && !(prev == some bslash) then
        findBinOpAux expr op false none depth last (i + 1) (some c) rest
      else
        findBinOpAux expr op inQ qc depth last (i + 1) (some c) rest
    else if !inQ && (c == '(' || c == '[' || c == lbrace) then
      findBinOpAux expr op inQ qc (depth + 1) last (i + 1) (some c) rest
    else if !inQ && (c == ')' || c == ']' || c == rbrace) then
      findBinOpAux expr op inQ qc (depth - 1) last (i + 1) (some c) rest
    else if !inQ && depth == 0 && hasPre (c :: rest) op then
      if op = ['-'] &&
          (let left := pyStrip (expr.take i)
           left.isEmpty || (left.getLast?.map isSignPredecessor).getD false) then
        findBinOpAux expr op inQ qc depth last (i + 1) (some c) rest
      else if decide (op.length > 1) then some i
      else findBinOpAux expr op inQ qc depth (some i) (i + 1) (some c) rest
    else
      findBinOpAux expr op inQ qc depth last (i + 1) (some c) rest

/-- `_find_binary_op`: index of the rightmost (single-character operator) or
leftmost (multi-character operator) top-level occurrence of `op`; `none`
models the `-1` answer. -/
def find_binary_op (expr op : Str) : Option Nat :=
  findBinOpAux expr op false none 0 none 0 none expr

/-- First pass of `_find_ternary`: positions of every top-level `" if "`. -/
def ternIfPositions : Bool → Option Char → Int → Nat → Option Char →
    Str → List Nat → List Nat
  | _, _, _, _, _, [], acc => acc
  | inQ, qc, depth, i, prev, c :: rest, acc =>
    if isQuote c then
      if !inQ then
        ternIfPositions true (some c) depth (i + 1) (some c) rest acc
      else if qc == some c && !(prev == some bslash) then
        ternIfPositions false none depth (i + 1) (some c) rest acc
      else
        ternIfPositions inQ qc depth (i + 1) (some c) rest acc
    else if !inQ && (c == '(' || c == '[' || c == lbrace) then
      ternIfPositions inQ qc (depth + 1) (i + 1) (some c) rest acc
    else if !inQ && (c == ')' || c == ']' || c == rbrace) then
      ternIfPositions inQ qc (depth - 1) (i + 1) (some c) rest acc
    else if !inQ && depth == 0 && hasPre (c :: rest) " if ".data then
      ternIfPositions inQ qc depth (i + 1) (some c) rest (acc ++ [i])
    else
      ternIfPositions inQ qc depth (i + 1) (some c) rest acc

/-- Second pass of `_find_ternary` for one `" if "` position: scan `rest`
for a top-level `" else "` whose split leaves the condition and else branch
non-empty; on a failed non-emptiness check the scan keeps going. -/
def ternElseScan (thenE rest : Str) : Bool → Option Char → Int → Nat →
    Option Char → Str → Option (Str × Str × Str)
  | _, _, _, _, _, [] => none
  | inQ, qc, depth, j, prev, c :: tl =>
    if isQuote c then
      if !inQ then
        ternElseScan thenE rest true (some c) depth (j + 1) (some c) tl
      else if qc == some c && !(prev == some bslash) then
        ternElseScan thenE rest false none depth (j + 1) (some c) tl
      else
        ternElseScan thenE rest inQ qc depth (j + 1) (some c) tl
    else if !inQ && (c == '(' || c == '[' || c == lbrace) then
      ternElseScan thenE rest inQ qc (depth + 1) (j + 1) (some c) tl
    else if !inQ && (c == ')' || c == ']' || c == rbrace) then
      ternElseScan thenE rest inQ qc (depth - 1) (j + 1) (some c) tl
    else if !inQ && depth == 0 && hasPre (c :: tl) " else ".data then
      let condE := pyStrip (rest.take j)
      let elseE := pyStrip (rest.drop (j + 6))
      if !thenE.isEmpty && !condE.isEmpty && !elseE.isEmpty then
        some (thenE, condE, elseE)
      else
        ternElseScan thenE rest inQ qc depth (j + 1) (some c) tl
    else
      ternElseScan thenE rest inQ qc depth (j + 1) (some c) tl

/-- Try the `" if "` positions from the rightmost leftwards. -/
def ternTryPositions (expr : Str) : List Nat → Option (Str × Str × Str)
  | [] => none
  | pos :: more =>
    let thenE := pyStrip (expr.take pos)
    let rest := expr.drop (pos + 4)
    match ternElseScan thenE rest false none 0 0 none rest with
    | some r => some r
    | none => ternTryPositions expr more

/-- `_find_ternary`: match a top-level Python-style
`then if cond else default`. -/
def find_ternary (expr : Str) : Option (Str × Str × Str) :=
  ternTryPositions expr
    (ternIfPositions false none 0 0 none expr []).reverse

/-- Scanning loop of `_extract_block`: brace depth with quote tracking
(escape-checked); stop at the brace closing depth zero. -/
def extractBlockAux (text : Str) : Bool → Option Char → Int → Nat →
    Option Char → Str → Option (Str × Str)
  | _, _, _, _, _, [] => none
  | inQ, qc, depth, i, prev, c :: rest =>
    if isQuote c then
      if !inQ then
        extractBlockAux text true (some c) depth (i + 1) (some c) rest
      else if qc == some c && !(prev == some bslash) then
        extractBlockAux text false none depth (i + 1) (some c) rest
      else
        extractBlockAux text inQ qc depth (i + 1) (some c) rest
    else if !inQ && c == lbrace then
      extractBlockAux text inQ qc (depth + 1) (i + 1) (some c) rest
    else if !inQ && c == rbrace then
      if depth - 1 == 0 then some ((text.take i).drop 1, text.drop (i + 1))
      else extractBlockAux text inQ qc (depth - 1) (i + 1) (some c) rest
    else
      extractBlockAux text inQ qc depth (i + 1) (some c) rest

/-- `_extract_block`: content of the first matching `{ }` plus the rest;
`none` models the raised `CherryRuntimeError` (missing `{` or unterminated
block). -/
def extract_block (textIn : Str) : Option (Str × Str) :=
  let text := pyLStrip textIn
  if !(hasPre text [lbrace]) then none
  else extractBlockAux text false none 0 0 none text

/-- Scanning loop of the parenthesized branch of `_extract_condition`:
paren depth with quote toggling (note: the source checks no backslash
escape here). -/
def extractCondAux (text : Str) : Bool → Option Char → Int → Nat → Str →
    Option (Str × Str)
  | _, _, _, _, [] => none
  | inQ, qc, depth, i, c :: rest =>
    if isQuote c then
      if !inQ then
        extractCondAux text true (some c) depth (i + 1) rest
      else if qc == some c then
        extractCondAux text false none depth (i + 1) rest
      else
        extractCondAux text inQ qc depth (i + 1) rest
    else if !inQ && c == '(' then
      extractCondAux text inQ qc (depth + 1) (i + 1) rest
    else if !inQ && c == ')' then
      if depth - 1 == 0 then some ((text.take i).drop 1, text.drop (i + 1))
      else extractCondAux text inQ qc (depth - 1) (i + 1) rest
    else
      extractCondAux text inQ qc depth (i + 1) rest

/-- `_extract_condition`: a parenthesized condition up to the matching `)`,
or a bare condition up to the first `{`; `none` models the raised errors
(unterminated condition, or no `{` for the `text.index` call). -/
def extract_condition (textIn : Str) : Option (Str × Str) :=
  let text := pyLStrip textIn
  if hasPre text ['('] then
    extractCondAux text false none 0 0 text
  else
    match indexOfChar lbrace text with
    | none => none
    | some bi => some (pyStrip (text.take bi), text.drop bi)

/-- The group-2 semantics of a trailing `\s*(.+)$` (with `re.S`): greedy
whitespace, backing off one character if everything after the `=` is
whitespace, and failing on an empty remainder. -/
def grp2 (rest : Str) : Option Str :=
  if rest.isEmpty then none
  else some (rest.drop (min (rest.takeWhile isPySpace).length (rest.length - 1)))

/-- The `^fn\s+([a-zA-Z_][a-zA-Z0-9_]*)\s*\(([^)]*)\)\s*\{(.*)\}$` regex of
function definitions: name, raw parameter text, body text. -/
def matchFnDef (s : Str) : Option (Str × Str × Str) :=
  match s with
  | 'f' :: 'n' :: rest =>
    if (rest.takeWhile isPySpace).isEmpty then none
    else
      match matchIdent (rest.dropWhile isPySpace) with
      | none => none
      | some (name, r2) =>
        match r2.dropWhile isPySpace with
        | '(' :: r4 =>
          let params := r4.takeWhile (fun c => !(c == ')'))
          match r4.dropWhile (fun c => !(c == ')')) with
          | [] => none
          | _ :: r5 =>
            match r5.dropWhile isPySpace with
            | c :: r7 =>
              if c == lbrace then
                if (r7.getLast?.map (· == rbrace)).getD false then
                  some (name, params, r7.dropLast)
                else none
              else none
            | [] => none
        | _ => none
  | _ => none

/-- The `^if\s*[\(\s]` entry test of `_run_stmt`. -/
def ifStart (s : Str) : Bool :=
  match s with
  | 'i' :: 'f' :: c :: _ => c == '(' || isPySpace c
  | _ => false

/-- The `^while\s*[\(\s]` entry test. -/
def whileStart (s : Str) : Bool :=
  match s with
  | 'w' :: 'h' :: 'i' :: 'l' :: 'e' :: c :: _ => c == '(' || isPySpace c
  | _ => false

/-- The `^return\b` entry test. -/
def returnStart (s : Str) : Bool :=
  hasPre s "return".data &&
    (match s.drop 6 with
     | [] => true
     | c :: _ => !isWordChar c)

/-- The `^(?:var|let)\s+` entry test. -/
def varLetEntry (s : Str) : Bool :=
  match s with
  | 'v' :: 'a' :: 'r' :: c :: _ => isPySpace c
  | 'l' :: 'e' :: 't' :: c :: _ => isPySpace c
  | _ => false

/-- The full declaration regex
`^(?:var|let)\s+([a-zA-Z_][a-zA-Z0-9_]*)\s*=\s*(.+)$`. -/
def matchDecl (s : Str) : Option (Str × Str) :=
  let rest := s.drop 3
  if (rest.takeWhile isPySpace).isEmpty then none
  else
    match matchIdent (rest.dropWhile isPySpace) with
    | none => none
    | some (name, r2) =>
      match r2.dropWhile isPySpace with
      | '=' :: r4 => (grp2 r4).map (fun g => (name, g))
      | _ => none

/-- The compound-assignment regex
`^([a-zA-Z_][a-zA-Z0-9_]*)\s*(\+=|-=|\*=|/=|%=)\s*(.+)$`: name, operator
character, right-hand side. -/
def matchCompound (s : Str) : Option (Str × Char × Str) :=
  match matchIdent s with
  | none => none
  | some (name, r1) =>
    match r1.dropWhile isPySpace with
    | o :: '=' :: r3 =>
      if o == '+' || o == '-' || o == '*' || o == '/' || o == '%' then
        (grp2 r3).map (fun g => (name, o, g))
      else none
    | _ => none

/-- The plain-assignment regex `^([a-zA-Z_][a-zA-Z0-9_]*)\s*=\s*(.+)$`. -/
def matchAssign (s : Str) : Option (Str × Str) :=
  match matchIdent s with
  | none => none
  | some (name, r1) =>
    match r1.dropWhile isPySpace with
    | '=' :: r3 => (grp2 r3).map (fun g => (name, g))
    | _ => none

/-- The statement-level call test:
`re.match(r'[a-zA-Z_][a-zA-Z0-9_.]*\s*\(', s)` plus `s.endswith(')')`. -/
def callStmtCheck (s : Str) : Bool :=
  (match matchIdentDots s with
   | none => false
   | some (_, r) => hasPre (r.dropWhile isPySpace) ['(']) &&
  endsWithChar ')' s

/-- The `^not\s+` test of the unary-not branch. -/
def notStart (s : Str) : Bool :=
  match s with
  | 'n' :: 'o' :: 't' :: c :: _ => isPySpace c
  | _ => false

/-- `^-?[0-9]+$`: an integer literal. -/
def isIntLit (s : Str) : Bool :=
  match s with
  | '-' :: r => !r.isEmpty && r.all Char.isDigit
  | r => !r.isEmpty && r.all Char.isDigit

/-- `^-?[0-9]+\.[0-9]+$`: a float literal (host floats are outside the
embedding; the branch is detected and flagged). -/
def isFloatLit (s : Str) : Bool :=
  let core := match s with
    | '-' :: r => r
    | r => r
  match indexOfChar '.' core with
  | none => false
  | some i =>
    let before := core.take i
    let after := core.drop (i + 1)
    !before.isEmpty && before.all Char.isDigit &&
      !after.isEmpty && after.all Char.isDigit

/-- Value of an integer literal. -/
def parseIntLit (s : Str) : Int :=
  match s with
  | '-' :: r => -((r.foldl (fun acc c => acc * 10 + (c.toNat - 48)) 0 : Nat) : Int)
  | r => ((r.foldl (fun acc c => acc * 10 + (c.toNat - 48)) 0 : Nat) : Int)

/-- Countdown scan of `_eval_subscript_chain`: find the `[` matching the
final `]`, scanning right to left with parity-toggled quote tracking.  The
argument `k` is the current index plus one. -/
def findBrkAux (expr : Str) : Nat → Int → Bool → Option Nat
  | 0, _, _ => none
  | k + 1, depth, inQ =>
    match expr.get? k with
    | none => none
    | some c =>
      if isQuote c && (k == 0 || !((expr.get? (k - 1)).map (· == bslash)).getD false) then
        findBrkAux expr k depth (!inQ)
      else if !inQ && c == ']' then
        findBrkAux expr k (depth + 1) inQ
      else if !inQ && c == '[' then
        if depth - 1 == 0 then some k
        else findBrkAux expr k (depth - 1) inQ
      else
        findBrkAux expr k depth inQ

/-- Position of the `[` opening the trailing subscript, if the backward
scan finds one. -/
def findBracketStart (expr : Str) : Option Nat :=
  findBrkAux expr expr.length 0 false

/-- Python `obj[key]` as used by the subscript chain, with
`KeyError`/`IndexError`/`TypeError` caught and turned into `None`:
list/str index with negative-index wrapping, dict lookup by `==` on keys.
`none` is fuel exhaustion of the key comparison. -/
def pySubscript (fu : Nat) (σ : St) (obj key : Value) : Option Value :=
  match obj with
  | .arr a =>
    match asNum key with
    | some n =>
      let l := σ.getArr a
      let idx : Int := if n < 0 then n + l.length else n
      if 0 ≤ idx && idx < l.length then some ((l.get? idx.toNat).getD .null)
      else some .null
    | none => some .null
  | .str s =>
    match asNum key with
    | some n =>
      let idx : Int := if n < 0 then n + s.length else n
      if 0 ≤ idx && idx < s.length then
        some (.str (((s.get? idx.toNat).map ([·])).getD []))
      else some .null
    | none => some .null
  | .dict d =>
    match cmpAux fu σ (.lookupK key (σ.getDict d)) with
    | some (.look (some v)) => some v
    | some (.look none) => some .null
    | _ => none
  | _ => some .null

/-- Walk the dotted member path of the property-access branch: a dict
member by string key, otherwise the host `hasattr` reflection (outside the
embedding, documented as absent), otherwise `None` and stop. -/
def walkDots (fu : Nat) (σ : St) : Value → List Str → Option Value
  | cur, [] => some cur
  | cur, p :: rest =>
    match cur with
    | .dict d =>
      match cmpAux fu σ (.lookupK (.str p) (σ.getDict d)) with
      | some (.look (some v)) => walkDots fu σ v rest
      | some (.look none) => some .null
      | _ => none
    | _ => some .null

/-- Walk the receiver path of a dotted method call (`parts[1:-1]`),
breaking to `None` when the receiver is `None`. -/
def walkAttrPath (fu : Nat) (σ : St) : Value → List Str → Option Value
  | cur, [] => some cur
  | cur, p :: rest =>
    match cur with
    | .null => some .null
    | .dict d =>
      match cmpAux fu σ (.lookupK (.str p) (σ.getDict d)) with
      | some (.look (some v)) => walkAttrPath fu σ v rest
      | some (.look none) => walkAttrPath fu σ .null rest
      | _ => none
    | _ => walkAttrPath fu σ .null rest

/-- Insert into a dict object with Python key semantics: an `==`-equal key
overwrites the value (keeping the original key object), otherwise the entry
is appended. -/
def dictSet (fu : Nat) (σ : St) (k v : Value) :
    List (Value × Value) → Option (List (Value × Value))
  | [] => some [(k, v)]
  | (k', v') :: rest =>
    match pyEq fu σ k k' with
    | none => none
    | some true => some ((k', v) :: rest)
    | some false => (dictSet fu σ k v rest).map ((k', v') :: ·)

/-- Replace every two-character escape `a b` with `rep`
(`raw.replace(chr(92) + c, ...)` scans left to right, non-overlapping). -/
def replaceEsc (a b rep : Char) : Str → Str
  | [] => []
  | [c] => [c]
  | c :: d :: rest =>
    if c == a && d == b then rep :: replaceEsc a b rep rest
    else c :: replaceEsc a b rep (d :: rest)

/-- The escape substitution after interpolation:
`raw.replace('\n' escape, newline).replace('\t' escape, tab)`. -/
def unescapeStr (s : Str) : Str :=
  replaceEsc bslash 't' '\t' (replaceEsc bslash 'n' '\n' s)

/-- Scan of Python `s.replace(old, new)` (used by the `.replace` method),
non-overlapping left-to-right; with an empty pattern the replacement is
interleaved around every character.  Fuel is the string length plus one;
every step consumes at least one character. -/
def pyReplaceAux : Nat → Str → Str → Str → Str
  | 0, s, _, _ => s
  | fu + 1, s, pat, new =>
    match pat with
    | [] =>
      match s with
      | [] => new
      | c :: rest => new ++ c :: pyReplaceAux fu rest [] new
    | p :: ps =>
      match s with
      | [] => []
      | c :: rest =>
        if hasPre (c :: rest) (p :: ps) then
          new ++ pyReplaceAux fu ((c :: rest).drop (p :: ps).length) pat new
        else c :: pyReplaceAux fu rest pat new

/-- Python `s.replace(old, new)`. -/
def pyReplace (s pat new : Str) : Str := pyReplaceAux (s.length + 1) s pat new

end Cherry

namespace Cherry

/-- First index `j ≥ minIdx` of a `{` in `s` (for the non-greedy
`(.*?)\s*\{` groups of the for-statement regexes). -/
def firstBraceFrom (minIdx : Nat) (s : Str) : Option Nat :=
  match indexOfChar lbrace (s.drop minIdx) with
  | none => none
  | some k => some (minIdx + k)

/-- The for-in header regex
`([a-zA-Z_][a-zA-Z0-9_]*)\s+in\s+(.+?)\s*\{` applied to the text after
`for`: loop variable and (stripped) collection expression.  The non-greedy
group ends at the first `{` that leaves at least one whitespace and one
group character after `in`. -/
def matchForIn (rest : Str) : Option (Str × Str) :=
  match matchIdent rest with
  | none => none
  | some (var, r1) =>
    if (r1.takeWhile isPySpace).isEmpty then none
    else
      let r2 := r1.dropWhile isPySpace
      if !(hasPre r2 "in".data) then none
      else
        let r3 := r2.drop 2
        match r3 with
        | [] => none
        | c :: _ =>
          if !isPySpace c then none
          else
            match firstBraceFrom 2 r3 with
            | none => none
            | some j => some (var, pyStrip ((r3.take j).drop 1))

/-- The C-style for header regex `(.*?);(.*?);(.*?)\s*\{` applied to the
text after `for`: stripped init, condition and post statements.  The
non-greedy groups split at the first two semicolons anywhere in the text
and at the first `{` after them. -/
def matchForC (rest : Str) : Option (Str × Str × Str) :=
  match indexOfChar ';' rest with
  | none => none
  | some i1 =>
    match indexOfChar ';' (rest.drop (i1 + 1)) with
    | none => none
    | some k =>
      let i2 := i1 + 1 + k
      match firstBraceFrom (i2 + 1) rest with
      | none => none
      | some j =>
        some (pyStrip (rest.take i1),
              pyStrip ((rest.drop (i1 + 1)).take (i2 - i1 - 1)),
              pyStrip ((rest.drop (i2 + 1)).take (j - i2 - 1)))

/-- Scan of the call-validity check in `_eval`'s call branch: index of the
`)` that closes the `(` at `openPos` (absolute index `i` starts there;
quote tracking checks the previous raw character as escape). -/
def firstCloseAux : Bool → Option Char → Int → Nat → Option Char → Str →
    Option Nat
  | _, _, _, _, _, [] => none
  | inQ, qc, depth, i, prev, c :: rest =>
    if isQuote c then
      if !inQ then firstCloseAux true (some c) depth (i + 1) (some c) rest
      else if qc == some c && !(prev == some bslash) then
        firstCloseAux false none depth (i + 1) (some c) rest
      else firstCloseAux inQ qc depth (i + 1) (some c) rest
    else if !inQ && c == '(' then
      firstCloseAux inQ qc (depth + 1) (i + 1) (some c) rest
    else if !inQ && c == ')' then
      if depth - 1 == 0 then some i
      else firstCloseAux inQ qc (depth - 1) (i + 1) (some c) rest
    else firstCloseAux inQ qc depth (i + 1) (some c) rest

/-- The call-branch validity test of `_eval`: the expression matches
`^([a-zA-Z_][a-zA-Z0-9_.]*)\s*\(`, ends with `)`, and the first `(` is
closed exactly at the final character. -/
def evalCallValid (expr : Str) : Bool :=
  match matchIdentDots expr with
  | none => false
  | some (_, r) =>
    let afterWs := r.dropWhile isPySpace
    if !(hasPre afterWs ['(']) || !(endsWithChar ')' expr) then false
    else
      let openPos := expr.length - afterWs.length
      match firstCloseAux false none 0 openPos (expr.get? (openPos - 1)) afterWs with
      | some fc => fc == expr.length - 1
      | none => false

/-- `str()` of each value in a list (for `print`). -/
def strsOf (fu : Nat) (σ : St) : List Value → Option (List Str)
  | [] => some []
  | x :: rest =>
    match pyStrOf fu σ x, strsOf fu σ rest with
    | some s, some tl => some (s :: tl)
    | _, _ => none

/-- Python `sum` fold with the plain `+` semantics, starting from `0`. -/
def sumFold (σ : St) : Value → List Value → Option (St × Value)
  | acc, [] => some (σ, acc)
  | acc, x :: rest =>
    match pyAddPlain σ acc x with
    | none => none
    | some (σ', acc') => sumFold σ' acc' rest

/-- Bind parameters positionally over a frame (`zip` truncates at the
shorter list, so surplus parameters stay unbound and surplus arguments are
dropped). -/
def bindParams (env : List (Str × Value)) (ps : List Str) (xs : List Value) :
    List (Str × Value) :=
  (ps.zip xs).foldl (fun e pv => alSet pv.1 pv.2 e) env

end Cherry

namespace Cherry

/-! ### The interpreter -/

/-- Precedence classes of the binary-operator scanning loops of `_eval`
(the comparison loop, the additive loop, the multiplicative loop and the
exponent loop; each tries its operators in source order). -/
inductive BinKind where
  | cmp | add | mul | pw
deriving DecidableEq, Repr

/-- Requests of the interpreter: each constructor is one of the mutually
recursive procedures of `Runtime` (or one of its internal loops), folded
into a single fuel-indexed function. -/
inductive Req where
  | evalQ (e : Str)                                 -- `_eval`
  | evalTailQ (e : Str)                             -- `_eval` from the ternary branch on
  | binChainQ (kind : BinKind) (ops : List Str) (e : Str) -- one operator loop of `_eval`
  | evalFinQ (e : Str)                              -- `_eval` from the subscript branch on
  | evalFinQ2 (e : Str)                             -- `_eval` dotted-access branch
  | evalFinQ3 (e : Str)                             -- `_eval` env lookup / string fallback
  | subQ (e : Str)                                  -- `_eval_subscript_chain`
  | interpSQ (raw : Str)                            -- the `${...}` re.sub of the string branch
  | dictQ (pairs : List Str) (acc : List (Value × Value)) -- `_eval_dict` loop
  | argsQ (l : List Str)                            -- `[self._eval(a) for a in args]`
  | rangeArgsQ (l : List Str) (acc : List Int)      -- `[int(self._eval(a)) for a in args]`
  | callQ (name : Str) (args : List Str)            -- `_run_call`
  | callUserQ (name : Str) (args : List Str)        -- `_run_call` user-table tail
  | stmtQ (s : Str)                                 -- `_run_stmt`
  | stmtTailQ (s : Str)                             -- `_run_stmt` call/bare tail
  | stmtsQ (l : List Str)                           -- `_run_block` / function-body loop
  | blockQ (b : Str)                                -- `_run_block`
  | topQ (l : List Str)                             -- the `run` loop
  | ifQ (s : Str)                                   -- `_run_if` loop
  | whileQ (guard : Nat) (cond body : Str)          -- `_run_while` loop
  | forCQ (guard : Nat) (cond post body : Str)      -- C-style loop of `_run_for`
  | forArrQ (var : Str) (addr idx : Nat) (body : Str) -- for-in over a live list
  | forListQ (var : Str) (items : List Value) (body : Str) -- for-in over str chars / dict keys

/-- Answers of the interpreter requests. -/
inductive Ans where
  | v (x : Value)
  | vs (xs : List Value)
  | txt (cs : Str)
  | pairsA (l : List (Value × Value))
  | ints (l : List Int)
  | unres
deriving DecidableEq, Repr

/-- Outcome of a request: a normal answer, a `_ReturnSignal` in flight, or
a raised exception carrying its message. -/
inductive Out where
  | ok (a : Ans)
  | ret (x : Value)
  | err (m : Str)
deriving DecidableEq, Repr

/-- The `evalQ` case of the interpreter (see `interp`). -/
def evalQC (fu : Nat) (recur : St → Req → Option (St × Out)) (σ : St) (e0 : Str) :
    Option (St × Out) :=
  let e := pyStrip e0
  if e.isEmpty then some (σ, .ok (.v .null))
  else if is_str_literal e then
    -- template interpolation, then escape substitution
    match recur σ (.interpSQ (unquote e)) with
    | some (σ1, .ok (.txt cs)) =>
      some (σ1, .ok (.v (.str (unescapeStr cs))))
    | r => r
  else if e = "true".data then some (σ, .ok (.v (.bool true)))
  else if e = "false".data then some (σ, .ok (.v (.bool false)))
  else if e = "null".data || e = "None".data then some (σ, .ok (.v .null))
  else if isFloatLit e then
    some (σ, .err "float literal: host floats are outside the embedding".data)
  else if isIntLit e then some (σ, .ok (.v (.int (parseIntLit e))))
  else if hasPre e ['['] && endsWithChar ']' e then
    let inner := pyStrip (unquote e)
    if inner.isEmpty then
      let (σ1, v) := σ.allocArr []
      some (σ1, .ok (.v v))
    else
      match recur σ (.argsQ (split_by_comma inner)) with
      | some (σ1, .ok (.vs xs)) =>
        let (σ2, v) := σ1.allocArr xs
        some (σ2, .ok (.v v))
      | r => r
  else if hasPre e [lbrace] && endsWithChar rbrace e then
    let inner := pyStrip (unquote e)
    if inner.isEmpty then
      let (σ1, v) := σ.allocDict []
      some (σ1, .ok (.v v))
    else
      match recur σ (.dictQ (split_by_comma inner) []) with
      | some (σ1, .ok (.pairsA l)) =>
        let (σ2, v) := σ1.allocDict l
        some (σ2, .ok (.v v))
      | r => r
  else if hasPre e ['('] && endsWithChar ')' e then
    recur σ (.evalQ (unquote e))
  else if notStart e then
    match recur σ (.evalQ (pyStrip (e.drop 4))) with
    | some (σ1, .ok (.v x)) => some (σ1, .ok (.v (.bool (!truthy σ1 x))))
    | r => r
  else if evalCallValid e then
    match parse_call e with
    | none => recur σ (.evalTailQ e)        -- `except Exception: pass`
    | some (nm, args) =>
      match recur σ (.callQ nm args) with
      | some (σ1, .ok (.v x)) => some (σ1, .ok (.v x))
      | some (σ1, _) => recur σ1 (.evalTailQ e) -- raised: swallowed, state kept
      | none => none
  else recur σ (.evalTailQ e)

/-- The `evalTailQ` case of the interpreter (see `interp`). -/
def evalTailQC (fu : Nat) (recur : St → Req → Option (St × Out)) (σ : St) (e : Str) :
    Option (St × Out) :=
  match find_ternary e with
  | some (thenE, condE, elseE) =>
    match recur σ (.evalQ condE) with
    | some (σ1, .ok (.v c)) =>
      if truthy σ1 c then recur σ1 (.evalQ thenE)
      else recur σ1 (.evalQ elseE)
    | r => r
  | none =>
    match find_binary_op e " and ".data with
    | some i =>
      match recur σ (.evalQ (pyStrip (e.take i))) with
      | some (σ1, .ok (.v l)) =>
        if !truthy σ1 l then some (σ1, .ok (.v l))
        else recur σ1 (.evalQ (pyStrip (e.drop (i + 5))))
      | r => r
    | none =>
      match find_binary_op e " or ".data with
      | some i =>
        match recur σ (.evalQ (pyStrip (e.take i))) with
        | some (σ1, .ok (.v l)) =>
          if truthy σ1 l then some (σ1, .ok (.v l))
          else recur σ1 (.evalQ (pyStrip (e.drop (i + 4))))
        | r => r
      | none =>
        recur σ (.binChainQ .cmp
          ["==".data, "!=".data, ">=".data, "<=".data, ">".data, "<".data] e)

/-- The `binChainQ` case of the interpreter (see `interp`). -/
def binChainQC (fu : Nat) (recur : St → Req → Option (St × Out)) (σ : St) (kind : BinKind) (ops : List Str) (e : Str) :
    Option (St × Out) :=
  match ops with
  | [] =>
    match kind with
    | .cmp => recur σ (.binChainQ .add ["+".data, "-".data] e)
    | .add =>
      recur σ (.binChainQ .mul ["*".data, "//".data, "/".data, "%".data] e)
    | .mul => recur σ (.binChainQ .pw ["**".data] e)
    | .pw => recur σ (.evalFinQ e)
  | op :: more =>
    match find_binary_op e op with
    | none => recur σ (.binChainQ kind more e)
    | some i =>
      let lhsS := pyStrip (e.take i)
      let rhsS := pyStrip (e.drop (i + op.length))
      match kind with
      | .cmp =>
        match recur σ (.evalQ lhsS) with
        | some (σ1, .ok (.v l)) =>
          match recur σ1 (.evalQ rhsS) with
          | some (σ2, .ok (.v r)) =>
            match pyCompare fu σ2 l r op with
            | .ok b => some (σ2, .ok (.v (.bool b)))
            | _ => none
          | r => r
        | r => r
      | .add =>
        if lhsS.isEmpty then recur σ (.binChainQ kind more e)
        else
          match recur σ (.evalQ lhsS) with
          | some (σ1, .ok (.v l)) =>
            match recur σ1 (.evalQ rhsS) with
            | some (σ2, .ok (.v r)) =>
              if op = "+".data then
                match l, r with
                | .str _, _ | _, .str _ =>
                  match pyStrOf fu σ2 l, pyStrOf fu σ2 r with
                  | some ls, some rs => some (σ2, .ok (.v (.str (ls ++ rs))))
                  | _, _ => none
                | _, _ =>
                  match pyAddPlain σ2 l r with
                  | some (σ3, v) => some (σ3, .ok (.v v))
                  | none =>
                    some (σ2, .err "TypeError: unsupported operands for +".data)
              else
                match pySub σ2 l r with
                | some (σ3, v) => some (σ3, .ok (.v v))
                | none =>
                  some (σ2, .err "TypeError: unsupported operands for -".data)
            | r => r
          | r => r
      | .mul =>
        match recur σ (.evalQ lhsS) with
        | some (σ1, .ok (.v l)) =>
          match recur σ1 (.evalQ rhsS) with
          | some (σ2, .ok (.v r)) =>
            if op = "*".data then
              match pyMulPlain σ2 l r with
              | some (σ3, v) => some (σ3, .ok (.v v))
              | none =>
                some (σ2, .err "TypeError: unsupported operands for *".data)
            else if op = "//".data then
              match pyFloorDiv σ2 l r with
              | some (σ3, v) => some (σ3, .ok (.v v))
              | none => some (σ2, .err "error in floor division".data)
            else if op = "/".data then
              some (σ2, .err "true division: host floats are outside the embedding".data)
            else
              match pyMod σ2 l r with
              | some (σ3, v) => some (σ3, .ok (.v v))
              | none => some (σ2, .err "error in %".data)
          | r => r
        | r => r
      | .pw =>
        match recur σ (.evalQ lhsS) with
        | some (σ1, .ok (.v l)) =>
          match recur σ1 (.evalQ rhsS) with
          | some (σ2, .ok (.v r)) =>
            match pyPow σ2 l r with
            | some (σ3, v) => some (σ3, .ok (.v v))
            | none => some (σ2, .err "error in **".data)
          | r => r
        | r => r

/-- The `evalFinQ` case of the interpreter (see `interp`). -/
def evalFinQC (fu : Nat) (recur : St → Req → Option (St × Out)) (σ : St) (e : Str) :
    Option (St × Out) :=
  if containsSub ['['] e && endsWithChar ']' e then
    match recur σ (.subQ e) with
    | some (σ1, .ok .unres) => recur σ1 (.evalFinQ2 e)
    | r => r
  else recur σ (.evalFinQ2 e)

/-- The `evalFinQ2` case of the interpreter (see `interp`). -/
def evalFinQ2C (fu : Nat) (recur : St → Req → Option (St × Out)) (σ : St) (e : Str) :
    Option (St × Out) :=
  if containsSub ['.'] e then
    match splitOnChar '.' e with
    | [] => recur σ (.evalFinQ3 e)
    | p0 :: restParts =>
      match alGet p0 σ.env with
      | some v0 =>
        match walkDots fu σ v0 restParts with
        | some cur => some (σ, .ok (.v cur))
        | none => none
      | none => recur σ (.evalFinQ3 e)
  else recur σ (.evalFinQ3 e)

/-- The `evalFinQ3` case of the interpreter (see `interp`). -/
def evalFinQ3C (fu : Nat) (recur : St → Req → Option (St × Out)) (σ : St) (e : Str) :
    Option (St × Out) :=
  match alGet e σ.env with
  | some v => some (σ, .ok (.v v))
  | none => some (σ, .ok (.v (.str e)))

/-- The `subQ` case of the interpreter (see `interp`). -/
def subQC (fu : Nat) (recur : St → Req → Option (St × Out)) (σ : St) (e : Str) :
    Option (St × Out) :=
  if !(endsWithChar ']' e) then some (σ, .ok .unres)
  else
    match findBracketStart e with
    | none => some (σ, .ok .unres)
    | some 0 => some (σ, .ok .unres)
    | some bs =>
      match recur σ (.evalQ (pyStrip (e.take bs))) with
      | some (σ1, .ok (.v obj)) =>
        match recur σ1 (.evalQ (pyStrip ((e.drop (bs + 1)).dropLast))) with
        | some (σ2, .ok (.v key)) =>
          match pySubscript fu σ2 obj key with
          | some v => some (σ2, .ok (.v v))
          | none => none
        | r => r
      | r => r

/-- The `interpSQ` case of the interpreter (see `interp`). -/
def interpSQC (fu : Nat) (recur : St → Req → Option (St × Out)) (σ : St) (raw : Str) :
    Option (St × Out) :=
  match raw with
  | [] => some (σ, .ok (.txt []))
  | '$' :: rest =>
    match rest with
    | b :: inner =>
      if b == lbrace &&
         !(inner.takeWhile (fun c => !(c == rbrace))).isEmpty &&
         !(inner.dropWhile (fun c => !(c == rbrace))).isEmpty then
        let key := inner.takeWhile (fun c => !(c == rbrace))
        let tail := (inner.dropWhile (fun c => !(c == rbrace))).drop 1
        match recur σ (.evalQ (pyStrip key)) with
        | some (σ1, .ok (.v x)) =>
          match pyStrOf fu σ1 x with
          | none => none
          | some s =>
            match recur σ1 (.interpSQ tail) with
            | some (σ2, .ok (.txt t)) => some (σ2, .ok (.txt (s ++ t)))
            | r => r
        | r => r
      else
        match recur σ (.interpSQ rest) with
        | some (σ1, .ok (.txt t)) => some (σ1, .ok (.txt ('$' :: t)))
        | r => r
    | [] =>
      match recur σ (.interpSQ rest) with
      | some (σ1, .ok (.txt t)) => some (σ1, .ok (.txt ('$' :: t)))
      | r => r
  | c :: rest =>
    match recur σ (.interpSQ rest) with
    | some (σ1, .ok (.txt t)) => some (σ1, .ok (.txt (c :: t)))
    | r => r

/-- The `dictQ` case of the interpreter (see `interp`). -/
def dictQC (fu : Nat) (recur : St → Req → Option (St × Out)) (σ : St) (pairs : List Str) (acc : List (Value × Value)) :
    Option (St × Out) :=
  match pairs with
  | [] => some (σ, .ok (.pairsA acc))
  | p :: rest =>
    match indexOfChar ':' p with
    | none => some (σ, .err "ValueError: no colon in dict entry".data)
    | some ci =>
      match recur σ (.evalQ (pyStrip (p.take ci))) with
      | some (σ1, .ok (.v k)) =>
        match recur σ1 (.evalQ (pyStrip (p.drop (ci + 1)))) with
        | some (σ2, .ok (.v v)) =>
          match k with
          | .arr _ | .dict _ =>
            some (σ2, .err "TypeError: unhashable key".data)
          | _ =>
            match dictSet fu σ2 k v acc with
            | none => none
            | some acc' => recur σ2 (.dictQ rest acc')
        | r => r
      | r => r

/-- The `argsQ` case of the interpreter (see `interp`). -/
def argsQC (fu : Nat) (recur : St → Req → Option (St × Out)) (σ : St) (l : List Str) :
    Option (St × Out) :=
  match l with
  | [] => some (σ, .ok (.vs []))
  | a :: rest =>
    match recur σ (.evalQ a) with
    | some (σ1, .ok (.v x)) =>
      match recur σ1 (.argsQ rest) with
      | some (σ2, .ok (.vs xs)) => some (σ2, .ok (.vs (x :: xs)))
      | r => r
    | r => r

/-- The `rangeArgsQ` case of the interpreter (see `interp`). -/
def rangeArgsQC (fu : Nat) (recur : St → Req → Option (St × Out)) (σ : St) (l : List Str) (acc : List Int) :
    Option (St × Out) :=
  match l with
  | [] => some (σ, .ok (.ints acc))
  | a :: rest =>
    match recur σ (.evalQ a) with
    | some (σ1, .ok (.v x)) =>
      match toIntStrict x with
      | none => some (σ1, .err "int() conversion failed".data)
      | some n => recur σ1 (.rangeArgsQ rest (acc ++ [n]))
    | r => r

/-- The `callQ` case of the interpreter (see `interp`). -/
def callQC (fu : Nat) (recur : St → Req → Option (St × Out)) (σ : St) (name : Str) (args : List Str) :
    Option (St × Out) :=
  if name = "print".data then
    match recur σ (.argsQ args) with
    | some (σ1, .ok (.vs xs)) =>
      match strsOf fu σ1 xs with
      | none => none
      | some strs =>
        some (σ1.print (List.intercalate " ".data strs), .ok (.v .null))
    | r => r
  else if name = "len".data then
    match args with
    | [] => some (σ, .ok (.v (.int 0)))   -- v is None → return 0
    | a :: _ =>
      match recur σ (.evalQ a) with
      | some (σ1, .ok (.v x)) =>
        match x with
        | .null => some (σ1, .ok (.v (.int 0)))
        | .str s => some (σ1, .ok (.v (.int s.length)))
        | .arr ad => some (σ1, .ok (.v (.int (σ1.getArr ad).length)))
        | .dict dd => some (σ1, .ok (.v (.int (σ1.getDict dd).length)))
        | _ => some (σ1, .err "TypeError: object has no len".data)
      | r => r
  else if name = "range".data then
    match recur σ (.rangeArgsQ args []) with
    | some (σ1, .ok (.ints vals)) =>
      let build : Option (List Int) :=
        match vals with
        | [] => some []
        | [n] => rangeList 0 n 1
        | [a, b] => rangeList a b 1
        | a :: b :: st :: _ => rangeList a b st
      match build with
      | none => some (σ1, .err "ValueError: range step zero".data)
      | some l =>
        let (σ2, v) := σ1.allocArr (l.map Value.int)
        some (σ2, .ok (.v v))
    | r => r
  else if name = "sum".data then
    match args with
    | [] => some (σ, .ok (.v (.int 0)))   -- sum of the empty default
    | a :: _ =>
      match recur σ (.evalQ a) with
      | some (σ1, .ok (.v x)) =>
        if !truthy σ1 x then some (σ1, .ok (.v (.int 0)))
        else
          match x with
          | .arr ad =>
            match sumFold σ1 (.int 0) (σ1.getArr ad) with
            | some (σ2, v) => some (σ2, .ok (.v v))
            | none => some (σ1, .err "TypeError: bad operand for sum".data)
          | .dict dd =>
            match sumFold σ1 (.int 0) ((σ1.getDict dd).map Prod.fst) with
            | some (σ2, v) => some (σ2, .ok (.v v))
            | none => some (σ1, .err "TypeError: bad operand for sum".data)
          | _ => some (σ1, .err "TypeError: not iterable".data)
      | r => r
  else if name = "min".data || name = "max".data then
    let isMin := name = "min".data
    if args.length == 1 then
      match recur σ (.evalQ (args.headD [])) with
      | some (σ1, .ok (.v x)) =>
        let seq : Option (List Value) :=
          match x with
          | .arr ad => some (σ1.getArr ad)
          | .str cs => some (cs.map (fun ch => .str [ch]))
          | .dict dd => some ((σ1.getDict dd).map Prod.fst)
          | _ => none
        match seq with
        | none => some (σ1, .err "TypeError: not iterable".data)
        | some l =>
          match minMaxOf fu σ1 isMin l with
          | none => none
          | some none => some (σ1, .err "min/max of bad sequence".data)
          | some (some v) => some (σ1, .ok (.v v))
      | r => r
    else
      match recur σ (.argsQ args) with
      | some (σ1, .ok (.vs xs)) =>
        match minMaxOf fu σ1 isMin xs with
        | none => none
        | some none => some (σ1, .err "min/max of bad sequence".data)
        | some (some v) => some (σ1, .ok (.v v))
      | r => r
  else if name = "format".data then
    match args with
    | [] => some (σ, .err "IndexError: format needs a value".data)
    | a :: _ =>
      match recur σ (.evalQ a) with
      | some (σ1, .ok (.v x)) =>
        -- host format specs are outside the embedding; the source falls
        -- back to str(val) whenever format() raises
        match pyStrOf fu σ1 x with
        | none => none
        | some s => some (σ1, .ok (.v (.str s)))
      | r => r
  else if name = "time".data then
    some (σ, .err "time(): the host clock is outside the embedding".data)
  else if name = "append".data then
    match args with
    | [] => some (σ, .err "IndexError: append needs a list".data)
    | a :: restA =>
      match recur σ (.evalQ a) with
      | some (σ1, .ok (.v lst)) =>
        match restA with
        | [] =>
          match lst with
          | .arr ad =>
            some (σ1.setArr ad (σ1.getArr ad ++ [Value.null]), .ok (.v lst))
          | _ => some (σ1, .ok (.v lst))
        | b :: _ =>
          match recur σ1 (.evalQ b) with
          | some (σ2, .ok (.v item)) =>
            match lst with
            | .arr ad =>
              some (σ2.setArr ad (σ2.getArr ad ++ [item]), .ok (.v lst))
            | _ => some (σ2, .ok (.v lst))
          | r => r
      | r => r
  else if name = "keys".data then
    match args with
    | [] =>
      let (σ1, v) := σ.allocArr []
      some (σ1, .ok (.v v))
    | a :: _ =>
      match recur σ (.evalQ a) with
      | some (σ1, .ok (.v x)) =>
        match x with
        | .dict dd =>
          let (σ2, v) := σ1.allocArr ((σ1.getDict dd).map Prod.fst)
          some (σ2, .ok (.v v))
        | _ =>
          let (σ2, v) := σ1.allocArr []
          some (σ2, .ok (.v v))
      | r => r
  else if name = "connect".data then
    match args with
    | [] => some (σ, .err "IndexError: connect needs a uri".data)
    | a :: restA =>
      match recur σ (.evalQ a) with
      | some (σ1, .ok (.v _)) =>
        match restA with
        | [] =>
          some (σ1, .err "Database handle: collaborator outside the embedding".data)
        | b :: restB =>
          match recur σ1 (.evalQ b) with
          | some (σ2, .ok (.v _)) =>
            match restB with
            | [] =>
              some (σ2, .err "Database handle: collaborator outside the embedding".data)
            | c :: _ =>
              match recur σ2 (.evalQ c) with
              | some (σ3, .ok (.v _)) =>
                some (σ3, .err "Database handle: collaborator outside the embedding".data)
              | r => r
          | r => r
      | r => r
  else if name = "h2o.frame".data then
    match args with
    | [] => some (σ, .err "Frame handle: collaborator outside the embedding".data)
    | a :: _ =>
      match recur σ (.evalQ a) with
      | some (σ1, .ok (.v _)) =>
        some (σ1, .err "Frame handle: collaborator outside the embedding".data)
      | r => r
  else if name = "h2o.preprocess".data then
    match args with
    | [] => some (σ, .ok (.v .null))
    | a :: _ => recur σ (.evalQ a)          -- pure passthrough
  else if name = "h2o.automl".data then
    match args with
    | [] => some (σ, .err "Model handle: collaborator outside the embedding".data)
    | a :: restA =>
      match recur σ (.evalQ a) with
      | some (σ1, .ok (.v _)) =>
        match restA with
        | [] => some (σ1, .err "Model handle: collaborator outside the embedding".data)
        | b :: _ =>
          match recur σ1 (.evalQ b) with
          | some (σ2, .ok (.v _)) =>
            some (σ2, .err "Model handle: collaborator outside the embedding".data)
          | r => r
      | r => r
  else if name = "deploy".data then
    match args with
    | [] => some (σ, .err "deploy: collaborator outside the embedding".data)
    | a :: restA =>
      match recur σ (.evalQ a) with
      | some (σ1, .ok (.v _)) =>
        match restA with
        | [] => some (σ1, .err "deploy: collaborator outside the embedding".data)
        | b :: _ =>
          match recur σ1 (.evalQ b) with
          | some (σ2, .ok (.v _)) =>
            some (σ2, .err "deploy: collaborator outside the embedding".data)
          | r => r
      | r => r
  else if name = "undeploy".data then
    match args with
    | [] => some (σ, .err "undeploy: collaborator outside the embedding".data)
    | a :: restA =>
      match recur σ (.evalQ a) with
      | some (σ1, .ok (.v _)) =>
        match restA with
        | [] => some (σ1, .err "undeploy: collaborator outside the embedding".data)
        | b :: _ =>
          match recur σ1 (.evalQ b) with
          | some (σ2, .ok (.v _)) =>
            some (σ2, .err "undeploy: collaborator outside the embedding".data)
          | r => r
      | r => r
  else if containsSub ['.'] name then
    -- dotted method call: walk the receiver path, dispatch on method
    match splitOnChar '.' name with
    | [] => recur σ (.callUserQ name args)
    | p0 :: restParts =>
      let obj0 := (alGet p0 σ.env).getD .null
      match walkAttrPath fu σ obj0 restParts.dropLast with
      | none => none
      | some obj =>
        let method := (restParts.getLast?).getD p0
        -- db.query / model.predict / frame.describe take collaborator
        -- receivers, which are outside the value domain: those
        -- isinstance guards are false for every modelled value.
        if method = "get".data then
          match args with
          | [] =>
            match obj with
            | .dict dd =>
              match cmpAux fu σ (.lookupK .null (σ.getDict dd)) with
              | some (.look (some v)) => some (σ, .ok (.v v))
              | some (.look none) => some (σ, .ok (.v .null))
              | _ => none
            | _ => some (σ, .ok (.v .null))
          | a :: restA =>
            match recur σ (.evalQ a) with
            | some (σ1, .ok (.v key)) =>
              match restA with
              | [] =>
                match obj with
                | .dict dd =>
                  match cmpAux fu σ1 (.lookupK key (σ1.getDict dd)) with
                  | some (.look (some v)) => some (σ1, .ok (.v v))
                  | some (.look none) => some (σ1, .ok (.v .null))
                  | _ => none
                | _ => some (σ1, .ok (.v .null))
              | b :: _ =>
                match recur σ1 (.evalQ b) with
                | some (σ2, .ok (.v dflt)) =>
                  match obj with
                  | .dict dd =>
                    match cmpAux fu σ2 (.lookupK key (σ2.getDict dd)) with
                    | some (.look (some v)) => some (σ2, .ok (.v v))
                    | some (.look none) => some (σ2, .ok (.v dflt))
                    | _ => none
                  | _ => some (σ2, .ok (.v dflt))
                | r => r
            | r => r
        else
          match obj with
          | .str s =>
            if method = "replace".data then
              match args with
              | [] => some (σ, .ok (.v (.str s)))   -- replace('', '') is identity
              | a :: restA =>
                match recur σ (.evalQ a) with
                | some (σ1, .ok (.v pa)) =>
                  match restA with
                  | [] =>
                    match pa with
                    | .str ps => some (σ1, .ok (.v (.str (pyReplace s ps []))))
                    | _ => some (σ1, .err "TypeError: replace wants strings".data)
                  | b :: _ =>
                    match recur σ1 (.evalQ b) with
                    | some (σ2, .ok (.v pb)) =>
                      match pa, pb with
                      | .str ps, .str pn =>
                        some (σ2, .ok (.v (.str (pyReplace s ps pn))))
                      | _, _ =>
                        some (σ2, .err "TypeError: replace wants strings".data)
                    | r => r
                | r => r
            else recur σ (.callUserQ name args)
          | .arr ad =>
            if method = "append".data then
              match args with
              | [] =>
                some (σ.setArr ad (σ.getArr ad ++ [Value.null]), .ok (.v obj))
              | a :: _ =>
                match recur σ (.evalQ a) with
                | some (σ1, .ok (.v item)) =>
                  some (σ1.setArr ad (σ1.getArr ad ++ [item]), .ok (.v obj))
                | r => r
            else recur σ (.callUserQ name args)
          | .dict dd =>
            if method = "keys".data then
              let (σ1, v) := σ.allocArr ((σ.getDict dd).map Prod.fst)
              some (σ1, .ok (.v v))
            else recur σ (.callUserQ name args)
          | _ =>
            -- generic `getattr(obj, method)` host reflection is outside
            -- the embedding: treated as an absent attribute, falling
            -- through to the user-function table and the unknown warning
            recur σ (.callUserQ name args)
  else recur σ (.callUserQ name args)

/-- The `callUserQ` case of the interpreter (see `interp`). -/
def callUserQC (fu : Nat) (recur : St → Req → Option (St × Out)) (σ : St) (name : Str) (args : List Str) :
    Option (St × Out) :=
  match fnGet name σ.funcs with
  | some fn =>
    match recur σ (.argsQ args) with
    | some (σ1, .ok (.vs xs)) =>
      let saved := σ1.env
      let σ2 := { σ1 with env := bindParams σ1.env fn.params xs }
      match recur σ2 (.stmtsQ (split_statements fn.body)) with
      | some (σ3, .ok _) => some ({ σ3 with env := saved }, .ok (.v .null))
      | some (σ3, .ret rv) => some ({ σ3 with env := saved }, .ok (.v rv))
      | some (σ3, .err m) => some ({ σ3 with env := saved }, .err m)
      | none => none
    | r => r
  | none =>
    some (σ.print ("[warn] Unknown function: ".data ++ name), .ok (.v .null))

/-- The `stmtQ` case of the interpreter (see `interp`). -/
def stmtQC (fu : Nat) (recur : St → Req → Option (St × Out)) (σ : St) (s0 : Str) :
    Option (St × Out) :=
  let s := pyStrip s0
  match matchFnDef s with
  | some (fname, paramsRaw, body) =>
    let params :=
      ((splitOnChar ',' (pyStrip paramsRaw)).map pyStrip).filter
        (fun p => !p.isEmpty)
    some ({ σ with funcs := fnSet fname ⟨params, pyStrip body⟩ σ.funcs },
          .ok (.v .null))
  | none =>
    if ifStart s then recur σ (.ifQ s)
    else if whileStart s then
      match extract_condition (pyLStrip (s.drop 5)) with
      | none => some (σ, .err "Unterminated condition".data)
      | some (cond, rest) =>
        match extract_block (pyLStrip rest) with
        | none => some (σ, .err "Unterminated block".data)
        | some (body, _) => recur σ (.whileQ 1000000 cond body)
    else if startsForKw s then
      let rest := pyLStrip (s.drop 3)
      match matchForIn rest with
      | some (var, collE) =>
        match indexOfChar lbrace rest with
        | none => some (σ, .err ("Invalid for statement: ".data ++ s))
        | some bs =>
          match extract_block (rest.drop bs) with
          | none => some (σ, .err "Unterminated block".data)
          | some (body, _) =>
            match recur σ (.evalQ collE) with
            | some (σ1, .ok (.v coll)) =>
              match coll with
              | .null => some (σ1, .ok (.v .null))
              | .arr ad => recur σ1 (.forArrQ var ad 0 body)
              | .str cs =>
                recur σ1 (.forListQ var (cs.map (fun ch => .str [ch])) body)
              | .dict dd =>
                recur σ1 (.forListQ var ((σ1.getDict dd).map Prod.fst) body)
              | _ => some (σ1, .err "TypeError: not iterable".data)
            | r => r
      | none =>
        match matchForC rest with
        | some (init, cond, post) =>
          match indexOfChar lbrace rest with
          | none => some (σ, .err ("Invalid for statement: ".data ++ s))
          | some bs =>
            match extract_block (rest.drop bs) with
            | none => some (σ, .err "Unterminated block".data)
            | some (body, _) =>
              if !init.isEmpty then
                match recur σ (.stmtQ init) with
                | some (σ1, .ok _) => recur σ1 (.forCQ 1000000 cond post body)
                | r => r
              else recur σ (.forCQ 1000000 cond post body)
        | none => some (σ, .err ("Invalid for statement: ".data ++ s))
    else if returnStart s then
      let expr := pyStrip (s.drop 6)
      if expr.isEmpty then some (σ, .ret .null)
      else
        match recur σ (.evalQ expr) with
        | some (σ1, .ok (.v x)) => some (σ1, .ret x)
        | r => r
    else if varLetEntry s then
      match matchDecl s with
      | none => some (σ, .err ("Invalid declaration: ".data ++ s))
      | some (name, exprRaw) =>
        match recur σ (.evalQ (pyStrip exprRaw)) with
        | some (σ1, .ok (.v x)) =>
          some ({ σ1 with env := alSet name x σ1.env }, .ok (.v x))
        | r => r
    else if hasPre s "undeploy".data then
      match parse_call s with
      | none => some (σ, .err ("Not a function call: ".data ++ s))
      | some (_, uargs) =>
        if decide (uargs.length ≥ 2) then
          some (σ, .err "undeploy timeout: host floats are outside the embedding".data)
        else
          match uargs with
          | [] =>
            some (σ.print "[error] undeploy: missing argument".data,
                  .ok (.v (.bool false)))
          | a :: _ =>
            match recur σ (.evalQ a) with
            | some (σ1, .ok (.v _)) =>
              some (σ1, .err "undeploy: collaborator outside the embedding".data)
            | r => r
    else
      match matchCompound s with
      | some (name, opc, rhs) =>
        let cur := (alGet name σ.env).getD (.int 0)
        match recur σ (.evalQ (pyStrip rhs)) with
        | some (σ1, .ok (.v rv)) =>
          let applied : Option (St × Value) :=
            if opc == '+' then pyAddPlain σ1 cur rv
            else if opc == '-' then pySub σ1 cur rv
            else if opc == '*' then pyMulPlain σ1 cur rv
            else if opc == '/' then none  -- true division: host float
            else pyMod σ1 cur rv
          match applied with
          | none => some (σ1, .err "error in compound assignment".data)
          | some (σ2, v) =>
            some ({ σ2 with env := alSet name v σ2.env }, .ok (.v v))
        | r => r
      | none =>
        match matchAssign s with
        | some (name, exprRaw) =>
          if hasPre s (name ++ "==".data) then recur σ (.stmtTailQ s)
          else
            match recur σ (.evalQ (pyStrip exprRaw)) with
            | some (σ1, .ok (.v x)) =>
              some ({ σ1 with env := alSet name x σ1.env }, .ok (.v x))
            | r => r
        | none => recur σ (.stmtTailQ s)

/-- The `stmtTailQ` case of the interpreter (see `interp`). -/
def stmtTailQC (fu : Nat) (recur : St → Req → Option (St × Out)) (σ : St) (s : Str) :
    Option (St × Out) :=
  -- function/method call statement, then bare expression: both evaluate
  if callStmtCheck s then
    match recur σ (.evalQ s) with
    | some (σ1, .ok (.v x)) => some (σ1, .ok (.v x))
    | r => r
  else
    match recur σ (.evalQ s) with
    | some (σ1, .ok (.v x)) => some (σ1, .ok (.v x))
    | r => r

/-- The `stmtsQ` case of the interpreter (see `interp`). -/
def stmtsQC (fu : Nat) (recur : St → Req → Option (St × Out)) (σ : St) (l : List Str) :
    Option (St × Out) :=
  match l with
  | [] => some (σ, .ok (.v .null))
  | st :: rest =>
    let st' := pyStrip st
    if st'.isEmpty then recur σ (.stmtsQ rest)
    else
      match recur σ (.stmtQ st') with
      | some (σ1, .ok _) => recur σ1 (.stmtsQ rest)
      | r => r

/-- The `blockQ` case of the interpreter (see `interp`). -/
def blockQC (fu : Nat) (recur : St → Req → Option (St × Out)) (σ : St) (b : Str) :
    Option (St × Out) :=
  recur σ (.stmtsQ (split_statements b))

/-- The `topQ` case of the interpreter (see `interp`). -/
def topQC (fu : Nat) (recur : St → Req → Option (St × Out)) (σ : St) (l : List Str) :
    Option (St × Out) :=
  match l with
  | [] => some (σ, .ok (.v .null))
  | st :: rest =>
    let st' := pyStrip st
    if st'.isEmpty then recur σ (.topQ rest)
    else
      match recur σ (.stmtQ st') with
      | some (σ1, .ok _) => recur σ1 (.topQ rest)
      | some (σ1, .ret _) => recur σ1 (.topQ rest)   -- ignored at top level
      | some (σ1, .err m) =>
        recur (σ1.print ("[error] ".data ++ m)) (.topQ rest)
      | none => none

/-- The `ifQ` case of the interpreter (see `interp`). -/
def ifQC (fu : Nat) (recur : St → Req → Option (St × Out)) (σ : St) (s0 : Str) :
    Option (St × Out) :=
  let remainder := pyStrip s0
  if hasPre remainder "if".data || hasPre remainder "else if".data then
    let bodyStart :=
      if hasPre remainder "else if".data then pyLStrip (remainder.drop 7)
      else pyLStrip (remainder.drop 2)
    match extract_condition bodyStart with
    | none => some (σ, .err "Unterminated condition".data)
    | some (cond, rest) =>
      match extract_block (pyLStrip rest) with
      | none => some (σ, .err "Unterminated block".data)
      | some (thenB, rest2) =>
        match recur σ (.evalQ cond) with
        | some (σ1, .ok (.v c)) =>
          if truthy σ1 c then
            match recur σ1 (.blockQ thenB) with
            | some (σ2, .ok _) => some (σ2, .ok (.v .null))
            | r => r
          else recur σ1 (.ifQ rest2)
        | r => r
  else if hasPre remainder "else".data then
    match extract_block (pyLStrip (remainder.drop 4)) with
    | none => some (σ, .err "Unterminated block".data)
    | some (elseB, _) =>
      match recur σ (.blockQ elseB) with
      | some (σ1, .ok _) => some (σ1, .ok (.v .null))
      | r => r
  else some (σ, .ok (.v .null))

/-- The `whileQ` case of the interpreter (see `interp`). -/
def whileQC (fu : Nat) (recur : St → Req → Option (St × Out)) (σ : St) (guard : Nat) (cond : Str) (body : Str) :
    Option (St × Out) :=
  match recur σ (.evalQ cond) with
  | some (σ1, .ok (.v c)) =>
    if !truthy σ1 c then some (σ1, .ok (.v .null))
    else
      match recur σ1 (.blockQ body) with
      | some (σ2, .ok _) =>
        if guard - 1 == 0 then
          some (σ2.print "[warn] while loop exceeded iteration limit".data,
                .ok (.v .null))
        else recur σ2 (.whileQ (guard - 1) cond body)
      | r => r
  | r => r

/-- The `forCQ` case of the interpreter (see `interp`). -/
def forCQC (fu : Nat) (recur : St → Req → Option (St × Out)) (σ : St) (guard : Nat) (cond : Str) (post : Str) (body : Str) :
    Option (St × Out) :=
  let runBody : St → Option (St × Out) := fun σc =>
    match recur σc (.blockQ body) with
    | some (σ2, .ok _) =>
      let afterPost : Option (St × Out) → Option (St × Out) := fun r =>
        match r with
        | some (σ3, .ok _) =>
          if guard - 1 == 0 then
            some (σ3.print "[warn] for loop exceeded iteration limit".data,
                  .ok (.v .null))
          else recur σ3 (.forCQ (guard - 1) cond post body)
        | other => other
      if !post.isEmpty then afterPost (recur σ2 (.stmtQ post))
      else afterPost (some (σ2, .ok (.v .null)))
    | r => r
  if !cond.isEmpty then
    match recur σ (.evalQ cond) with
    | some (σ1, .ok (.v c)) =>
      if !truthy σ1 c then some (σ1, .ok (.v .null))
      else runBody σ1
    | r => r
  else runBody σ

/-- The `forArrQ` case of the interpreter (see `interp`). -/
def forArrQC (fu : Nat) (recur : St → Req → Option (St × Out)) (σ : St) (var : Str) (ad : Nat) (idx : Nat) (body : Str) :
    Option (St × Out) :=
  match (σ.getArr ad).get? idx with
  | none => some (σ, .ok (.v .null))
  | some item =>
    let σ1 := { σ with env := alSet var item σ.env }
    match recur σ1 (.blockQ body) with
    | some (σ2, .ok _) => recur σ2 (.forArrQ var ad (idx + 1) body)
    | r => r

/-- The `forListQ` case of the interpreter (see `interp`). -/
def forListQC (fu : Nat) (recur : St → Req → Option (St × Out)) (σ : St) (var : Str) (items : List Value) (body : Str) :
    Option (St × Out) :=
  match items with
  | [] => some (σ, .ok (.v .null))
  | item :: rest =>
    let σ1 := { σ with env := alSet var item σ.env }
    match recur σ1 (.blockQ body) with
    | some (σ2, .ok _) => recur σ2 (.forListQ var rest body)
    | r => r

/-- The interpreter.  Fuel is decremented on every recursive call; `none`
is fuel exhaustion (no counterpart in the source).  Each request case is
delegated to the corresponding `...C` function above, which is a
line-by-line translation of one procedure of
`cherryscript/runtime/interpreter.py`, with `recur` standing for the
recursive entry point at the smaller fuel. -/
def interp : Nat → St → Req → Option (St × Out)
  | 0, _, _ => none
  | fu + 1, σ, req =>
    match req with
    | .evalQ e0 => evalQC fu (interp fu) σ e0
    | .evalTailQ e => evalTailQC fu (interp fu) σ e
    | .binChainQ kind ops e => binChainQC fu (interp fu) σ kind ops e
    | .evalFinQ e => evalFinQC fu (interp fu) σ e
    | .evalFinQ2 e => evalFinQ2C fu (interp fu) σ e
    | .evalFinQ3 e => evalFinQ3C fu (interp fu) σ e
    | .subQ e => subQC fu (interp fu) σ e
    | .interpSQ raw => interpSQC fu (interp fu) σ raw
    | .dictQ pairs acc => dictQC fu (interp fu) σ pairs acc
    | .argsQ l => argsQC fu (interp fu) σ l
    | .rangeArgsQ l acc => rangeArgsQC fu (interp fu) σ l acc
    | .callQ name args => callQC fu (interp fu) σ name args
    | .callUserQ name args => callUserQC fu (interp fu) σ name args
    | .stmtQ s0 => stmtQC fu (interp fu) σ s0
    | .stmtTailQ s => stmtTailQC fu (interp fu) σ s
    | .stmtsQ l => stmtsQC fu (interp fu) σ l
    | .blockQ b => blockQC fu (interp fu) σ b
    | .topQ l => topQC fu (interp fu) σ l
    | .ifQ s0 => ifQC fu (interp fu) σ s0
    | .whileQ guard cond body => whileQC fu (interp fu) σ guard cond body
    | .forCQ guard cond post body => forCQC fu (interp fu) σ guard cond post body
    | .forArrQ var ad idx body => forArrQC fu (interp fu) σ var ad idx body
    | .forListQ var items body => forListQC fu (interp fu) σ var items body

end Cherry

namespace Cherry

/-! ### Theorems for the claims -/

/-- C1 (counterexample).  The claim says `or` binds looser than `and`, so
`false and false or true` should evaluate like `(false and false) or true`
to `true`.  The evaluator actually yields `false`: the `and`-split is tried
before the `or`-split. -/
theorem c1_counterexample :
    interp 100 St.init (.evalQ "false and false or true".data) =
      some (St.init, .ok (.v (.bool false))) ∧
    Value.bool false ≠ Value.bool true := by
  exact ⟨rfl, by decide⟩

/-- C1 (amended).  `_eval` searches for a top-level `" and "` before
`" or "`, so logical-and effectively binds looser than logical-or:
`false and false or true` evaluates like `false and (false or true)` to
`false`, and `true or false and false` evaluates like
`true or (false and false)`... in fact to `false`, because the `and`-split
makes `true or false` the left operand and returns the right operand
`false`; only explicit parentheses `(false and false) or true` recover the
conventional grouping. -/
theorem c1_and_or_precedence :
    interp 100 St.init (.evalQ "false and false or true".data) =
      some (St.init, .ok (.v (.bool false))) ∧
    interp 100 St.init (.evalQ "false and (false or true)".data) =
      some (St.init, .ok (.v (.bool false))) ∧
    interp 100 St.init (.evalQ "(false and false) or true".data) =
      some (St.init, .ok (.v (.bool true))) ∧
    interp 100 St.init (.evalQ "true or false and false".data) =
      some (St.init, .ok (.v (.bool false))) := by
  exact ⟨rfl, rfl, rfl, rfl⟩

/-- C2 (counterexample).  The claim says equal-precedence chains evaluate
left-to-right, e.g. `100 // 10 // 2 = (100 // 10) // 2 = 5`.  The `//`
operator is two characters long, so `_find_binary_op` returns its leftmost
top-level occurrence and the evaluator groups to the right:
`100 // (10 // 2) = 20`. -/
theorem c2_counterexample :
    interp 100 St.init (.evalQ "100 // 10 // 2".data) =
      some (St.init, .ok (.v (.int 20))) ∧
    Value.int 20 ≠ Value.int 5 := by
  exact ⟨rfl, by decide⟩

/-- C2 (amended).  The rightmost-split rule holds only for single-character
operators (`20 - 5 - 3 = 12`); the two-character `//` splits at its
leftmost occurrence (`100 // 10 // 2 = 20`); operators of equal precedence
group by the trial order `*`, `//`, `/`, `%` rather than position
(`10 * 3 % 4` evaluates as `10 * (3 % 4) = 30`); and `**` is unreachable,
because the `*` pass splits inside the `**` token first and the resulting
evaluation of an empty operand raises (`2 ** 3` is an evaluation error, not
right-associative exponentiation). -/
theorem c2_assoc_split :
    interp 100 St.init (.evalQ "20 - 5 - 3".data) =
      some (St.init, .ok (.v (.int 12))) ∧
    interp 100 St.init (.evalQ "100 // 10 // 2".data) =
      some (St.init, .ok (.v (.int 20))) ∧
    interp 100 St.init (.evalQ "10 * 3 % 4".data) =
      some (St.init, .ok (.v (.int 30))) ∧
    interp 100 St.init (.evalQ "2 ** 3".data) =
      some (St.init, .err "TypeError: unsupported operands for *".data) := by
  exact ⟨rfl, rfl, rfl, rfl⟩

/-- C3 (counterexample).  The claim says a parameter without an argument is
bound to Null for the body.  In `_run_call`, `zip(params, evaluated_args)`
silently drops the unmatched parameters, so `b` stays unbound and the body
`return b` resolves it through the unknown-identifier fallback to the
string `"b"`, not Null. -/
theorem c3_counterexample :
    interp 300 St.init
      (.topQ (split_statements
        "fn foo(a, b) \x7b\nreturn b\n\x7d\nvar r = foo(1)".data)) =
      some (⟨[("r".data, .str "b".data)],
             [("foo".data, ⟨["a".data, "b".data], "return b".data⟩)],
             [], [], []⟩,
            .ok (.v .null)) ∧
    Value.str "b".data ≠ Value.null := by
  exact ⟨rfl, by decide⟩

/-- C3 (amended).  Parameters beyond the argument list are left unbound:
inside the body they resolve through the ordinary lookup, to the global
binding of the same name when one exists at call time, and otherwise to the
identifier's own name as a string via the unknown-identifier fallback —
never to Null.  Extra arguments beyond the parameter list are still
evaluated (their side effects happen) and then ignored. -/
theorem c3_param_binding :
    interp 300 St.init
      (.topQ (split_statements
        "fn foo(a, b) \x7b\nreturn b\n\x7d\nvar r = foo(1)".data)) =
      some (⟨[("r".data, .str "b".data)],
             [("foo".data, ⟨["a".data, "b".data], "return b".data⟩)],
             [], [], []⟩,
            .ok (.v .null)) ∧
    interp 300 St.init
      (.topQ (split_statements
        "var b = 7\nfn foo(a, b) \x7b\nreturn b\n\x7d\nvar r = foo(1)".data)) =
      some (⟨[("b".data, .int 7), ("r".data, .int 7)],
             [("foo".data, ⟨["a".data, "b".data], "return b".data⟩)],
             [], [], []⟩,
            .ok (.v .null)) ∧
    interp 300 St.init
      (.topQ (split_statements
        "fn g(a) \x7b\nreturn a\n\x7d\nvar r = g(1, print(2))".data)) =
      some (⟨[("r".data, .int 1)],
             [("g".data, ⟨["a".data], "return a".data⟩)],
             [], [], ["2".data]⟩,
            .ok (.v .null)) := by
  exact ⟨rfl, rfl, rfl⟩

/-- C6 (counterexample).  The claim says the splitter raises a structural
parse failure on an unmatched closing delimiter, an unterminated string, or
an unterminated block comment.  `split_statements` is total and raises
nothing: the unmatched `)` is kept in the statement text (`depth` is
clamped at zero), the unterminated string is flushed as a trailing
statement, and the unterminated block comment is swallowed (up to its final
character, which leaks back into the statement stream). -/
theorem c6_counterexample :
    split_statements "x)".data = ["x)".data] ∧
    split_statements "var s = \"abc".data = ["var s = \"abc".data] ∧
    split_statements "/* x".data = ["x".data] := by
  exact ⟨rfl, rfl, rfl⟩

/-- C6 (amended).  Statement splitting never fails: on an unmatched closing
delimiter outside a string the depth is clamped at zero and the delimiter
stays in the statement text; an unterminated string literal at end of input
is flushed as a final statement; an unterminated block comment is silently
consumed except for its very last character.  Well-formed input still
splits at top-level semicolons and newlines. -/
theorem c6_splitter_total :
    split_statements "x)".data = ["x)".data] ∧
    split_statements "var s = \"abc".data = ["var s = \"abc".data] ∧
    split_statements "/* x".data = ["x".data] ∧
    split_statements "var x = 1; var y = 2".data =
      ["var x = 1".data, "var y = 2".data] := by
  exact ⟨rfl, rfl, rfl, rfl⟩

/-- C8 (counterexample).  The claim says `${expr}` interpolation applies
only to backtick strings, a single-quoted literal keeping the text
verbatim.  `_eval` applies the interpolation `re.sub` to the unquoted
content of every string literal, whatever its quote character, so the
single-quoted literal interpolates too. -/
theorem c8_counterexample :
    interp 100 St.init (.evalQ "\x27a$\x7b1\x7db\x27".data) =
      some (St.init, .ok (.v (.str "a1b".data))) ∧
    Value.str "a1b".data ≠ Value.str "a$\x7b1\x7db".data := by
  exact ⟨rfl, by decide⟩

/-- C8 (amended).  `${expr}` interpolation applies to every string-literal
quote style — backtick, single and double quotes all evaluate the embedded
expression and splice in its string representation. -/
theorem c8_interpolation_all_quotes :
    interp 100 St.init (.evalQ "\x60a$\x7b1\x7db\x60".data) =
      some (St.init, .ok (.v (.str "a1b".data))) ∧
    interp 100 St.init (.evalQ "\x27a$\x7b1\x7db\x27".data) =
      some (St.init, .ok (.v (.str "a1b".data))) ∧
    interp 100 St.init (.evalQ "\"a$\x7b1\x7db\"".data) =
      some (St.init, .ok (.v (.str "a1b".data))) := by
  exact ⟨rfl, rfl, rfl⟩

/-- C9.  The frame snapshot taken by `_run_call` is `dict(self.env)` — a
shallow copy sharing the list objects.  After `f(0)` runs
`append(lst, 2)`, the caller's binding `lst` still refers to the same list
object (address 0) as before the call, every name binding is restored, and
yet the heap cell now holds `[1, 2]`: the in-place mutation performed
inside the function body is visible in the caller's environment. -/
theorem c9_heap_mutation_visible :
    interp 300 St.init
      (.topQ (split_statements
        "var lst = [1]\nfn f(a) \x7b\nappend(lst, 2)\n\x7d\nvar r = f(0)".data)) =
      some (⟨[("lst".data, .arr 0), ("r".data, .null)],
             [("f".data, ⟨["a".data], "append(lst, 2)".data⟩)],
             [[.int 1, .int 2]], [], []⟩,
            .ok (.v .null)) := by
  exact rfl

end Cherry

namespace Cherry

/-- The kind of a value for comparison purposes: Python `bool` is an `int`
subclass, so both count as numbers. -/
def kindOf : Value → Nat
  | .null => 0
  | .bool _ => 1
  | .int _ => 1
  | .str _ => 2
  | .arr _ => 3
  | .dict _ => 4

/-- A two-object heap holding structurally equal lists and (differently
ordered) structurally equal dicts at distinct addresses. -/
def c4heap : St :=
  ⟨[], [],
   [[.int 1, .int 2], [.int 1, .int 2]],
   [[(.str "a".data, .int 1), (.str "b".data, .int 2)],
    [(.str "b".data, .int 2), (.str "a".data, .int 1)]],
   []⟩

theorem c4_kinds_pyEq (fu : Nat) (σ : St) (v w : Value)
    (hk : kindOf v ≠ kindOf w) : pyEq (fu + 1) σ v w = some false := by
  cases v <;> cases w <;>
    simp_all [pyEq, cmpAux, asNum, kindOf]

theorem c4_kinds_pyOrd (fu : Nat) (σ : St) (v w : Value)
    (hk : kindOf v ≠ kindOf w) : pyOrd (fu + 1) σ v w = some none := by
  cases v <;> cases w <;>
    simp_all [pyOrd, cmpAux, asNum, kindOf]

/-- C4 (amended).  Comparing values of different kinds never raises:
`_compare` catches the host `TypeError` of the ordering operators and
returns `False`, and host `==`/`!=` simply report inequality — so all four
ordering comparisons and `==` evaluate to `false`, while `!=` evaluates to
`true` (the claim's `1 != "a"` is `true`, not `false`).  `==`/`!=` compare
lists and dicts structurally: two distinct heap objects with equal contents
(dicts regardless of entry order) compare equal. -/
theorem c4_compare_semantics :
    (∀ (fu : Nat) (σ : St) (v w : Value), 0 < fu → kindOf v ≠ kindOf w →
      pyCompare fu σ v w "<".data = .ok false ∧
      pyCompare fu σ v w ">".data = .ok false ∧
      pyCompare fu σ v w "<=".data = .ok false ∧
      pyCompare fu σ v w ">=".data = .ok false ∧
      pyCompare fu σ v w "==".data = .ok false ∧
      pyCompare fu σ v w "!=".data = .ok true) ∧
    (pyCompare 10 c4heap (.arr 0) (.arr 1) "==".data = .ok true ∧
     pyCompare 10 c4heap (.dict 0) (.dict 1) "==".data = .ok true ∧
     pyCompare 10 c4heap (.arr 0) (.arr 1) "!=".data = .ok false ∧
     pyCompare 10 c4heap (.dict 0) (.dict 1) "!=".data = .ok false) := by
  constructor
  · intro fu σ v w hfu hk
    obtain ⟨k, rfl⟩ : ∃ k, fu = k + 1 := ⟨fu - 1, by omega⟩
    have he := c4_kinds_pyEq k σ v w hk
    have ho := c4_kinds_pyOrd k σ v w hk
    refine ⟨?_, ?_, ?_, ?_, ?_, ?_⟩ <;>
      simp [pyCompare, he, ho]
  · exact ⟨rfl, rfl, rfl, rfl⟩

/-- C4 (witness).  The general part of `c4_compare_semantics` applied at
`1` versus `"a"`: the ordering comparisons and `==` are `false`, `!=` is
`true`. -/
theorem c4_witness :
    pyCompare 5 St.init (.int 1) (.str "a".data) "<".data = .ok false ∧
    pyCompare 5 St.init (.int 1) (.str "a".data) "!=".data = .ok true := by
  have h := c4_compare_semantics.1 5 St.init (.int 1) (.str "a".data)
    (by decide) (by decide)
  exact ⟨h.1, h.2.2.2.2.2⟩

/-- C4 (counterexample).  The claim says every comparison across
incompatible types evaluates to `false`, in particular `1 != "a"`.  The
evaluator yields `true`: host `!=` on mismatched kinds is `True`, and
nothing turns it into `false`. -/
theorem c4_counterexample :
    interp 100 St.init (.evalQ "1 != \"a\"".data) =
      some (St.init, .ok (.v (.bool true))) ∧
    Value.bool true ≠ Value.bool false := by
  exact ⟨rfl, by decide⟩

end Cherry

namespace Cherry

/-- C7 (helper).  Evaluating an empty condition yields Null, so a condition
that always evaluates to `1` cannot be the empty string. -/
theorem c7_cond_nonempty (cond : Str)
    (hc : ∀ fu σ, 0 < fu → interp fu σ (.evalQ cond) = some (σ, .ok (.v (.int 1)))) :
    cond.isEmpty = false := by
  by_contra h
  have hc1 := hc 1 St.init (by decide)
  have : cond = [] := by
    cases cond with
    | nil => rfl
    | cons c cs => simp [List.isEmpty] at h
  subst this
  simp [interp, evalQC, pyStrip, pyLStrip, pyRStrip] at hc1

/-- C7.  The iteration guard of `_run_while` and of the C-style loop of
`_run_for`: when the condition always evaluates (without state change) to
the truthy `1` and the body (and, for the C-style loop, the post statement)
completes normally, a loop entered with guard value `n` executes the body
exactly `n` times, then stops by printing the non-fatal warning line and
returning normally — no exception propagates.  `_run_while` and `_run_for`
enter with `n = 1000000`, so a never-false loop runs its body exactly
1,000,000 times.  The fuel `f` of the embedding must merely exceed
`n + 2`. -/
theorem c7_iteration_guard (cond body post : Str) (g p : St → St) (vb : St → Value)
    (hc : ∀ fu σ, 0 < fu → interp fu σ (.evalQ cond) = some (σ, .ok (.v (.int 1))))
    (hb : ∀ fu σ, 2 ≤ fu → interp fu σ (.blockQ body) = some (g σ, .ok (.v .null)))
    (hp : ∀ fu σ, 2 ≤ fu → interp fu σ (.stmtQ post) = some (p σ, .ok (.v (vb σ)))) :
    ∀ n f σ, 0 < n → n + 3 ≤ f →
      (interp f σ (.whileQ n cond body) =
        some ((g^[n] σ).print "[warn] while loop exceeded iteration limit".data,
              .ok (.v .null))) ∧
      (post.isEmpty = false →
        interp f σ (.forCQ n cond post body) =
          some (((fun τ => p (g τ))^[n] σ).print
                  "[warn] for loop exceeded iteration limit".data,
                .ok (.v .null))) := by
  have hcne : cond.isEmpty = false := c7_cond_nonempty cond hc
  intro n
  induction n with
  | zero => intro f σ h0; omega
  | succ m ih =>
    intro f σ _ hf
    obtain ⟨k, rfl⟩ : ∃ k, f = k + 1 := ⟨f - 1, by omega⟩
    have hk3 : m + 3 ≤ k + 1 := by omega
    have hk0 : 0 < k := by omega
    have hk2 : 2 ≤ k := by omega
    constructor
    · -- while loop
      show interp (k + 1) σ (.whileQ (m + 1) cond body) = _
      simp only [interp, whileQC]
      rw [hc k σ hk0]
      simp only [truthy]
      rw [if_neg (by decide)]
      rw [hb k σ hk2]
      rcases Nat.eq_zero_or_pos m with hm | hm
      · subst hm
        simp [Function.iterate_one]
      · have hmeq : (m == 0) = false := by simp; omega
        simp only [Nat.add_sub_cancel, hmeq, Bool.false_eq_true, if_false]
        have := (ih k (g σ) hm (by omega)).1
        rw [this, Function.iterate_succ_apply]
    · -- C-style for loop
      intro hpne
      show interp (k + 1) σ (.forCQ (m + 1) cond post body) = _
      simp only [interp, forCQC]
      rw [if_pos (by simp [hcne])]
      rw [hc k σ hk0]
      simp only [truthy]
      rw [if_neg (by decide)]
      simp only [hb k σ hk2, hpne, Bool.not_false, if_true, hp k (g σ) hk2]
      rcases Nat.eq_zero_or_pos m with hm | hm
      · subst hm
        simp [Function.iterate_one]
      · have hmeq : (m == 0) = false := by simp; omega
        simp only [Nat.add_sub_cancel, hmeq, Bool.false_eq_true, if_false]
        have := (ih k (p (g σ)) hm (by omega)).2 hpne
        rw [this, Function.iterate_succ_apply]

end Cherry

namespace Cherry

/-- C7 (witness).  `c7_iteration_guard` applied to the concrete loop
`while (1) {}` (and the C-style analogue with post statement `x = 1`)
entered with guard value 2: the body runs exactly twice, the warning line
is printed, and the loop returns normally. -/
theorem c7_witness :
    interp 9 St.init (.whileQ 2 "1".data []) =
      some (⟨[], [], [], [],
             ["[warn] while loop exceeded iteration limit".data]⟩,
            .ok (.v .null)) ∧
    interp 9 St.init (.forCQ 2 "1".data "x = 1".data []) =
      some (⟨[("x".data, .int 1)], [], [], [],
             ["[warn] for loop exceeded iteration limit".data]⟩,
            .ok (.v .null)) := by
  have hc : ∀ fu σ, 0 < fu →
      interp fu σ (.evalQ "1".data) = some (σ, .ok (.v (.int 1))) := by
    intro fu σ h
    obtain ⟨k, rfl⟩ : ∃ k, fu = k + 1 := ⟨fu - 1, by omega⟩
    rfl
  have hb : ∀ fu σ, 2 ≤ fu →
      interp fu σ (.blockQ []) = some (σ, .ok (.v .null)) := by
    intro fu σ h
    obtain ⟨k, rfl⟩ : ∃ k, fu = k + 2 := ⟨fu - 2, by omega⟩
    rfl
  have hp : ∀ fu σ, 2 ≤ fu →
      interp fu σ (.stmtQ "x = 1".data) =
        some ({ σ with env := alSet "x".data (.int 1) σ.env },
              .ok (.v (.int 1))) := by
    intro fu σ h
    obtain ⟨k, rfl⟩ : ∃ k, fu = k + 2 := ⟨fu - 2, by omega⟩
    rfl
  have h := c7_iteration_guard "1".data [] "x = 1".data id
    (fun σ => { σ with env := alSet "x".data (.int 1) σ.env })
    (fun _ => .int 1) hc hb hp 2 9 St.init (by decide) (by decide)
  refine ⟨?_, ?_⟩
  · rw [h.1]; rfl
  · rw [h.2 (by decide)]; rfl

end Cherry

namespace Cherry

/-- Unfolding of one interpreter step on a user-function call request. -/
theorem interp_succ_callUserQ (fu : Nat) (σ : St) (name : Str) (args : List Str) :
    interp (fu + 1) σ (.callUserQ name args) = callUserQC fu (interp fu) σ name args := rfl

/-- C5.  The frame contract of `_run_call` for user-defined functions: the
caller's frame is snapshotted (`saved_env = dict(self.env)`) right after
the arguments are evaluated — the call time — and the `finally` clause
restores it whatever happens, so for EVERY user-defined call that
completes (normally, via `return`, or even by raising), the name-to-value
bindings afterwards are exactly the bindings present at call time:
parameter bindings and variables bound inside the body do not persist.
The second part runs the claim's own program: after `foo(3)` returns `4`,
`x` still maps to `100` and the only new binding is the caller's `var r`. -/
theorem c5_frame_restore :
    (∀ (fu : Nat) (σ : St) (name : Str) (args : List Str) (fn : FnDef)
       (σ1 σ' : St) (xs : List Value) (r : Out),
      fnGet name σ.funcs = some fn →
      interp fu σ (.argsQ args) = some (σ1, .ok (.vs xs)) →
      interp (fu + 1) σ (.callUserQ name args) = some (σ', r) →
      σ'.env = σ1.env) ∧
    interp 300 St.init
      (.topQ (split_statements
        "var x = 100\nfn foo(x) \x7b\nreturn x + 1\n\x7d\nvar r = foo(3)".data)) =
      some (⟨[("x".data, .int 100), ("r".data, .int 4)],
             [("foo".data, ⟨["x".data], "return x + 1".data⟩)], [], [], []⟩,
            .ok (.v .null)) := by
  constructor
  · intro fu σ name args fn σ1 σ' xs r hfn hargs h
    rw [interp_succ_callUserQ] at h
    simp only [callUserQC, hfn, hargs] at h
    rcases hbody : interp fu
        { σ1 with env := bindParams σ1.env fn.params xs }
        (.stmtsQ (split_statements fn.body)) with _ | ⟨σ3, o⟩
    · rw [hbody] at h; cases h
    · rw [hbody] at h
      cases o with
      | ok a =>
        simp only [Option.some.injEq, Prod.mk.injEq] at h
        rw [← h.1]
      | ret rv =>
        simp only [Option.some.injEq, Prod.mk.injEq] at h
        rw [← h.1]
      | err m =>
        simp only [Option.some.injEq, Prod.mk.injEq] at h
        rw [← h.1]
  · exact rfl

/-- C5 (witness).  `c5_frame_restore` applied to a concrete call of
`bar(3)` whose body binds a local `var z`: the binding does not survive the
call, the frame afterwards being exactly the call-time frame. -/
theorem c5_witness :
    (let σb : St :=
      ⟨[("x".data, .int 100)], [("bar".data, ⟨["y".data], "var z = y".data⟩)],
       [], [], []⟩
     interp 51 σb (.callUserQ "bar".data ["3".data]) =
       some (σb, .ok (.v .null)) ∧ σb.env = σb.env) := by
  refine ⟨rfl, ?_⟩
  exact c5_frame_restore.1 50
    ⟨[("x".data, .int 100)], [("bar".data, ⟨["y".data], "var z = y".data⟩)],
     [], [], []⟩
    "bar".data ["3".data] ⟨["y".data], "var z = y".data⟩
    ⟨[("x".data, .int 100)], [("bar".data, ⟨["y".data], "var z = y".data⟩)],
     [], [], []⟩
    ⟨[("x".data, .int 100)], [("bar".data, ⟨["y".data], "var z = y".data⟩)],
     [], [], []⟩
    [.int 3] (.ok (.v .null)) rfl rfl rfl

end Cherry

namespace Cherry

/-! ### Unfolding lemmas for single interpreter steps -/

/-- One step on a statement request. -/
theorem interp_succ_stmtQ (fu : Nat) (σ : St) (s : Str) :
    interp (fu + 1) σ (.stmtQ s) = stmtQC fu (interp fu) σ s := rfl

/-- One step on an expression request. -/
theorem interp_succ_evalQ (fu : Nat) (σ : St) (e : Str) :
    interp (fu + 1) σ (.evalQ e) = evalQC fu (interp fu) σ e := rfl

/-- One step on the ternary-and-logical tail of `_eval`. -/
theorem interp_succ_evalTailQ (fu : Nat) (σ : St) (e : Str) :
    interp (fu + 1) σ (.evalTailQ e) = evalTailQC fu (interp fu) σ e := rfl

/-- One step on a binary-operator loop request. -/
theorem interp_succ_binChainQ (fu : Nat) (σ : St) (kind : BinKind)
    (ops : List Str) (e : Str) :
    interp (fu + 1) σ (.binChainQ kind ops e) =
      binChainQC fu (interp fu) σ kind ops e := rfl

/-- One step on the subscript branch of `_eval`. -/
theorem interp_succ_evalFinQ (fu : Nat) (σ : St) (e : Str) :
    interp (fu + 1) σ (.evalFinQ e) = evalFinQC fu (interp fu) σ e := rfl

/-- One step on the dotted-access branch of `_eval`. -/
theorem interp_succ_evalFinQ2 (fu : Nat) (σ : St) (e : Str) :
    interp (fu + 1) σ (.evalFinQ2 e) = evalFinQ2C fu (interp fu) σ e := rfl

/-- One step on the lookup/fallback tail of `_eval`. -/
theorem interp_succ_evalFinQ3 (fu : Nat) (σ : St) (e : Str) :
    interp (fu + 1) σ (.evalFinQ3 e) = evalFinQ3C fu (interp fu) σ e := rfl

/-! ### Generic facts about the scanners, used to settle whole statement
families rather than single inputs -/

/-- If the first character of a pattern occurs nowhere in `l`, the pattern
is a prefix of no suffix of `l`. -/
theorem hasPre_drop_false_head (l : Str) (c0 : Char) (p : Str)
    (hc : c0 ∉ l) : ∀ k, hasPre (l.drop k) (c0 :: p) = false := by
  induction l with
  | nil => intro k; simp [List.drop_nil, hasPre]
  | cons a t ih =>
    intro k
    cases k with
    | zero =>
      have ha : (a == c0) = false := by
        simp only [beq_eq_false_iff_ne]
        intro hh; exact hc (hh ▸ List.mem_cons_self a t)
      simp [hasPre, ha]
    | succ k =>
      exact ih (fun hm => hc (List.mem_cons_of_mem a hm)) k

/-- If the second character of a pattern occurs nowhere in `l`, the pattern
is a prefix of no suffix of `l`. -/
theorem hasPre_drop_false_second (l : Str) (c0 c1 : Char) (p : Str)
    (hc : c1 ∉ l) : ∀ k, hasPre (l.drop k) (c0 :: c1 :: p) = false := by
  induction l with
  | nil => intro k; simp [List.drop_nil, hasPre]
  | cons a t ih =>
    intro k
    cases k with
    | zero =>
      cases t with
      | nil => cases ha : (a == c0) <;> simp [hasPre, ha]
      | cons b t2 =>
        have hb : (b == c1) = false := by
          simp only [beq_eq_false_iff_ne]
          intro hh
          exact hc (hh ▸ List.mem_cons_of_mem a (List.mem_cons_self b t2))
        cases ha : (a == c0) <;> simp [hasPre, ha, hb]
    | succ k =>
      exact ih (fun hm => hc (List.mem_cons_of_mem a hm)) k

/-- If the operator is a prefix of no suffix of the remaining text, the
scanning loop of `_find_binary_op` returns whatever candidate it carries. -/
theorem findBinOpAux_none (expr op : Str) :
    ∀ (rest : Str) (inQ : Bool) (qc : Option Char) (depth : Int)
      (last : Option Nat) (i : Nat) (prev : Option Char),
      (∀ k, hasPre (rest.drop k) op = false) →
      findBinOpAux expr op inQ qc depth last i prev rest = last := by
  intro rest
  induction rest with
  | nil => intro inQ qc depth last i prev _; rfl
  | cons c t ih =>
    intro inQ qc depth last i prev hk
    have h0 := hk 0
    simp only [List.drop_zero] at h0
    have ht : ∀ k, hasPre (t.drop k) op = false := fun k => hk (k + 1)
    simp only [findBinOpAux]
    repeat' split
    all_goals first
      | exact ih _ _ _ _ _ _ ht
      | simp_all

/-- `_find_binary_op` finds nothing when the operator is a prefix of no
suffix of the expression. -/
theorem find_binary_op_none (expr op : Str)
    (h : ∀ k, hasPre (expr.drop k) op = false) :
    find_binary_op expr op = none :=
  findBinOpAux_none expr op expr false none 0 none 0 none h

/-- The first pass of `_find_ternary` collects nothing when `" if "` is a
prefix of no suffix of the text. -/
theorem ternIfPositions_nil (l : Str) :
    ∀ (inQ : Bool) (qc : Option Char) (d : Int) (i : Nat)
      (prev : Option Char) (acc : List Nat),
      (∀ k, hasPre (l.drop k) " if ".data = false) →
      ternIfPositions inQ qc d i prev l acc = acc := by
  induction l with
  | nil => intro inQ qc d i prev acc _; rfl
  | cons c t ih =>
    intro inQ qc d i prev acc hk
    have h0 := hk 0
    simp only [List.drop_zero] at h0
    have ht : ∀ k, hasPre (t.drop k) " if ".data = false := fun k => hk (k + 1)
    simp only [ternIfPositions]
    repeat' split
    all_goals first
      | exact ih _ _ _ _ _ _ ht
      | simp_all

/-- `_find_ternary` finds nothing when `" if "` occurs in no suffix. -/
theorem find_ternary_none (l : Str)
    (h : ∀ k, hasPre (l.drop k) " if ".data = false) :
    find_ternary l = none := by
  unfold find_ternary
  rw [ternIfPositions_nil l false none 0 0 none [] h]
  rfl

/-- A character absent from a string is found by no substring search. -/
theorem containsSub_single_false (c : Char) :
    ∀ (l : Str), c ∉ l → containsSub [c] l = false := by
  intro l
  induction l with
  | nil => intro _; rfl
  | cons a t ih =>
    intro hm
    have ha : (a == c) = false := by
      simp only [beq_eq_false_iff_ne]
      intro hh; exact hm (hh ▸ List.mem_cons_self a t)
    simp [containsSub, hasPre, ha, ih (fun hmm => hm (List.mem_cons_of_mem a hmm))]

/-- A character absent from a string has no index in it. -/
theorem indexOfChar_none (c : Char) :
    ∀ (l : Str), c ∉ l → indexOfChar c l = none := by
  intro l
  induction l with
  | nil => intro _; rfl
  | cons a t ih =>
    intro hm
    have ha : (a == c) = false := by
      simp only [beq_eq_false_iff_ne]
      intro hh; exact hm (hh ▸ List.mem_cons_self a t)
    simp [indexOfChar, ha, ih (fun hmm => hm (List.mem_cons_of_mem a hmm))]

/-- `dropWhile` is the identity when the head (if any) fails the predicate. -/
theorem dropWhile_head_false (p : Char → Bool) :
    ∀ (l : Str), (∀ c, l.head? = some c → p c = false) → l.dropWhile p = l := by
  intro l h
  cases l with
  | nil => rfl
  | cons a t => simp [List.dropWhile, h a rfl]

/-- `strip` is the identity on a string whose first and last characters are
not whitespace. -/
theorem pyStrip_fix (l : Str)
    (h1 : ∀ c, l.head? = some c → isPySpace c = false)
    (h2 : ∀ c, l.getLast? = some c → isPySpace c = false) :
    pyStrip l = l := by
  unfold pyStrip pyLStrip pyRStrip
  rw [dropWhile_head_false isPySpace l h1]
  rw [dropWhile_head_false isPySpace l.reverse
    (fun c hc => h2 c (by rwa [List.head?_reverse] at hc))]
  exact List.reverse_reverse l

end Cherry

namespace Cherry

/-- If the character `'.'` does not occur after the optional sign, the float
literal regex fails. -/
theorem isFloatLit_none_aux (s : Str)
    (h : indexOfChar '.' (match s with | '-' :: r => r | r => r) = none) :
    isFloatLit s = false := by
  simp only [isFloatLit]
  rw [h]

/-- A digit is not Python whitespace. -/
theorem isDigit_not_pyspace (c : Char) (h : c.isDigit = true) :
    isPySpace c = false := by
  cases hsp : isPySpace c with
  | false => rfl
  | true =>
    exfalso
    simp only [isPySpace, Bool.or_eq_true, beq_iff_eq] at hsp
    rcases hsp with ((((hc | hc) | hc) | hc) | hc) | hc <;> subst hc <;>
      exact absurd h (by decide)

/-- The last element of a list is a member of it. -/
theorem mem_of_getLast?_eq (l : Str) (c : Char) (h : l.getLast? = some c) :
    c ∈ l := by
  obtain ⟨hh, rfl⟩ := List.mem_getLast?_eq_getLast h
  exact List.getLast_mem hh

/-- A missed operator in the binary-operator cascade of `_eval`. -/
theorem binChain_miss (k : Nat) (σ : St) (kind : BinKind) (op : Str)
    (more : List Str) (e : Str) (R : Option (St × Out))
    (hop : find_binary_op e op = none)
    (prev : interp k σ (.binChainQ kind more e) = R) :
    interp (k + 1) σ (.binChainQ kind (op :: more) e) = R := by
  rw [interp_succ_binChainQ]
  simp only [binChainQC, hop]
  exact prev

/-- Comparison tier exhausted: the cascade moves to `+`/`-`. -/
theorem binChain_done_cmp (k : Nat) (σ : St) (e : Str) (R : Option (St × Out))
    (prev : interp k σ (.binChainQ .add ["+".data, "-".data] e) = R) :
    interp (k + 1) σ (.binChainQ .cmp [] e) = R := by
  rw [interp_succ_binChainQ]
  simp only [binChainQC]
  exact prev

/-- Additive tier exhausted: the cascade moves to `*`,`//`,`/`,`%`. -/
theorem binChain_done_add (k : Nat) (σ : St) (e : Str) (R : Option (St × Out))
    (prev : interp k σ
      (.binChainQ .mul ["*".data, "//".data, "/".data, "%".data] e) = R) :
    interp (k + 1) σ (.binChainQ .add [] e) = R := by
  rw [interp_succ_binChainQ]
  simp only [binChainQC]
  exact prev

/-- Multiplicative tier exhausted: the cascade moves to `**`. -/
theorem binChain_done_mul (k : Nat) (σ : St) (e : Str) (R : Option (St × Out))
    (prev : interp k σ (.binChainQ .pw ["**".data] e) = R) :
    interp (k + 1) σ (.binChainQ .mul [] e) = R := by
  rw [interp_succ_binChainQ]
  simp only [binChainQC]
  exact prev

/-- Power tier exhausted: the cascade falls through to the subscript walk. -/
theorem binChain_done_pw (k : Nat) (σ : St) (e : Str) (R : Option (St × Out))
    (prev : interp k σ (.evalFinQ e) = R) :
    interp (k + 1) σ (.binChainQ .pw [] e) = R := by
  rw [interp_succ_binChainQ]
  simp only [binChainQC]
  exact prev

/-- No bracket in the expression: the subscript branch is skipped. -/
theorem evalFin_skip (k : Nat) (σ : St) (e : Str) (R : Option (St × Out))
    (hbr : containsSub ['['] e = false)
    (prev : interp k σ (.evalFinQ2 e) = R) :
    interp (k + 1) σ (.evalFinQ e) = R := by
  have hc : ¬ ((containsSub ['['] e && endsWithChar ']' e) = true) := by
    rw [hbr]; simp
  rw [interp_succ_evalFinQ]
  simp only [evalFinQC]
  rw [if_neg hc]
  exact prev

/-- No dot in the expression: the attribute walk is skipped. -/
theorem evalFin2_skip (k : Nat) (σ : St) (e : Str) (R : Option (St × Out))
    (hdot : containsSub ['.'] e = false)
    (prev : interp k σ (.evalFinQ3 e) = R) :
    interp (k + 1) σ (.evalFinQ2 e) = R := by
  have hc : ¬ (containsSub ['.'] e = true) := by
    rw [hdot]; exact Bool.false_ne_true
  rw [interp_succ_evalFinQ2]
  simp only [evalFinQ2C]
  rw [if_neg hc]
  exact prev

/-- An unbound name falls through to the string fallback of `_eval`. -/
theorem evalFin3_var_miss (k : Nat) (σ : St) (e : Str)
    (henv : alGet e σ.env = none) :
    interp (k + 1) σ (.evalFinQ3 e) = some (σ, .ok (.v (.str e))) := by
  rw [interp_succ_evalFinQ3]
  simp only [evalFinQ3C, henv]

/-- No ternary and no `and`/`or`: `_eval` proceeds to the comparison tier. -/
theorem evalTail_skip (k : Nat) (σ : St) (e : Str) (R : Option (St × Out))
    (htern : find_ternary e = none)
    (hand : find_binary_op e " and ".data = none)
    (hor : find_binary_op e " or ".data = none)
    (prev : interp k σ (.binChainQ .cmp
      ["==".data, "!=".data, ">=".data, "<=".data, ">".data, "<".data] e) = R) :
    interp (k + 1) σ (.evalTailQ e) = R := by
  rw [interp_succ_evalTailQ]
  simp only [evalTailQC, htern, hand, hor]
  exact prev

/-- An expression rejected by every specific-form test of `_eval` reaches
the ternary/logical tail. -/
theorem evalQ_fallthrough (k : Nat) (σ : St) (e : Str) (R : Option (St × Out))
    (hstrip : pyStrip e = e)
    (hempty : e.isEmpty = false)
    (hlit : is_str_literal e = false)
    (htrue : e ≠ "true".data)
    (hfalse : e ≠ "false".data)
    (hnull : (decide (e = "null".data) || decide (e = "None".data)) = false)
    (hfloat : isFloatLit e = false)
    (hint : isIntLit e = false)
    (hbrk : hasPre e ['['] = false)
    (hbrace : hasPre e [lbrace] = false)
    (hparen : hasPre e ['('] = false)
    (hnot : notStart e = false)
    (hcall : evalCallValid e = false)
    (prev : interp k σ (.evalTailQ e) = R) :
    interp (k + 1) σ (.evalQ e) = R := by
  rw [interp_succ_evalQ]
  simp only [evalQC, hstrip]
  rw [if_neg (by rw [hempty]; exact Bool.false_ne_true)]
  rw [if_neg (by rw [hlit]; exact Bool.false_ne_true)]
  rw [if_neg htrue]
  rw [if_neg hfalse]
  rw [if_neg (by rw [hnull]; exact Bool.false_ne_true)]
  rw [if_neg (by rw [hfloat]; exact Bool.false_ne_true)]
  rw [if_neg (by rw [hint]; exact Bool.false_ne_true)]
  rw [if_neg (by rw [hbrk]; simp)]
  rw [if_neg (by rw [hbrace]; simp)]
  rw [if_neg (by rw [hparen]; simp)]
  rw [if_neg (by rw [hnot]; exact Bool.false_ne_true)]
  rw [if_neg (by rw [hcall]; exact Bool.false_ne_true)]
  exact prev

/-- A statement that matches only the plain-assignment regex, with a space
before the `=`, executes as an assignment of its evaluated right-hand side. -/
theorem stmt_assign_eval (k : Nat) (σ σ1 : St) (s name exprRaw : Str)
    (x : Value)
    (hstrip : pyStrip s = s)
    (hfn : matchFnDef s = none)
    (hif : ifStart s = false)
    (hwhile : whileStart s = false)
    (hfor : startsForKw s = false)
    (hret : returnStart s = false)
    (hvar : varLetEntry s = false)
    (hund : hasPre s "undeploy".data = false)
    (hcomp : matchCompound s = none)
    (hassign : matchAssign s = some (name, exprRaw))
    (hpre2 : hasPre s (name ++ "==".data) = false)
    (hexpr : pyStrip exprRaw = exprRaw)
    (prev : interp k σ (.evalQ exprRaw) = some (σ1, .ok (.v x))) :
    interp (k + 1) σ (.stmtQ s) =
      some ({ σ1 with env := alSet name x σ1.env }, .ok (.v x)) := by
  rw [interp_succ_stmtQ]
  simp only [stmtQC, hstrip, hfn, hcomp, hassign, hexpr]
  rw [if_neg (by rw [hif]; exact Bool.false_ne_true)]
  rw [if_neg (by rw [hwhile]; exact Bool.false_ne_true)]
  rw [if_neg (by rw [hfor]; exact Bool.false_ne_true)]
  rw [if_neg (by rw [hret]; exact Bool.false_ne_true)]
  rw [if_neg (by rw [hvar]; exact Bool.false_ne_true)]
  rw [if_neg (by rw [hund]; exact Bool.false_ne_true)]
  rw [if_neg (by rw [hpre2]; exact Bool.false_ne_true)]
  rw [prev]

/-- C10.  The assignment regex `^([a-zA-Z_][a-zA-Z0-9_]*)\s*=\s*(.+)$` also
matches a spaced comparison `x == <digits>`, capturing `= <digits>` as the
right-hand side; the guard in `_run_stmt` only skips the branch when the
statement starts with the unspaced `name==`.  General form: for every
non-empty digit string `ds` and every state whose environment does not bind
the name `"= ds"`, the statement `x == ds` executes as an assignment that
binds `x` to the string `"= ds"` (the right-hand side falls through every
evaluator branch to the string fallback).  Concretely, `var x = 1` followed
by `x == 5` rebinds `x` to the string `"= 5"`, while the unspaced `x==5` is
evaluated as a comparison and leaves `x = 1`. -/
theorem c10_spaced_eq_assignment :
    (∀ (ds : Str) (σ : St) (k : Nat),
        ds ≠ [] →
        ds.all Char.isDigit = true →
        alGet ('=' :: ' ' :: ds) σ.env = none →
        interp (k + 23) σ (.stmtQ ('x' :: ' ' :: '=' :: '=' :: ' ' :: ds)) =
          some ({ σ with env := alSet ['x'] (.str ('=' :: ' ' :: ds)) σ.env },
                .ok (.v (.str ('=' :: ' ' :: ds))))) ∧
    interp 300 St.init
      (.topQ (split_statements "var x = 1\nx == 5".data)) =
      some (⟨[("x".data, .str "= 5".data)], [], [], [], []⟩, .ok (.v .null)) ∧
    interp 300 St.init
      (.topQ (split_statements "var x = 1\nx==5".data)) =
      some (⟨[("x".data, .int 1)], [], [], [], []⟩, .ok (.v .null)) := by
  refine ⟨?_, rfl, rfl⟩
  intro ds σ k hne hdig henv
  -- characters that occur in the right-hand side `= <digits>`
  have hnm : ∀ (c : Char), (c == '=') = false → (c == ' ') = false →
      c.isDigit = false → c ∉ ('=' :: ' ' :: ds) := by
    intro c h1 h2 h3 hm
    rcases List.mem_cons.mp hm with rfl | hm2
    · simp at h1
    rcases List.mem_cons.mp hm2 with rfl | hm3
    · simp at h2
    · have hcd := List.all_eq_true.mp hdig c hm3
      rw [h3] at hcd
      exact Bool.false_ne_true hcd
  have hnm2 : '=' ∉ (' ' :: ds) := by
    intro hm
    rcases List.mem_cons.mp hm with h | hm3
    · exact absurd h (by decide)
    · exact absurd (List.all_eq_true.mp hdig '=' hm3) (by decide)
  -- the operators the cascade scans for never occur top-level
  have hpre_eqeq : ∀ kk,
      hasPre (('=' :: ' ' :: ds).drop kk) ('=' :: '=' :: []) = false := by
    intro kk
    cases kk with
    | zero => rfl
    | succ kk => exact hasPre_drop_false_head (' ' :: ds) '=' ['='] hnm2 kk
  have h_eqeq : find_binary_op ('=' :: ' ' :: ds) "==".data = none :=
    find_binary_op_none _ _ (fun kk => hpre_eqeq kk)
  have h_ne : find_binary_op ('=' :: ' ' :: ds) "!=".data = none :=
    find_binary_op_none _ _ (fun kk =>
      hasPre_drop_false_head _ '!' ['='] (hnm '!' (by decide) (by decide) (by decide)) kk)
  have h_ge : find_binary_op ('=' :: ' ' :: ds) ">=".data = none :=
    find_binary_op_none _ _ (fun kk =>
      hasPre_drop_false_head _ '>' ['='] (hnm '>' (by decide) (by decide) (by decide)) kk)
  have h_le : find_binary_op ('=' :: ' ' :: ds) "<=".data = none :=
    find_binary_op_none _ _ (fun kk =>
      hasPre_drop_false_head _ '<' ['='] (hnm '<' (by decide) (by decide) (by decide)) kk)
  have h_gt : find_binary_op ('=' :: ' ' :: ds) ">".data = none :=
    find_binary_op_none _ _ (fun kk =>
      hasPre_drop_false_head _ '>' [] (hnm '>' (by decide) (by decide) (by decide)) kk)
  have h_lt : find_binary_op ('=' :: ' ' :: ds) "<".data = none :=
    find_binary_op_none _ _ (fun kk =>
      hasPre_drop_false_head _ '<' [] (hnm '<' (by decide) (by decide) (by decide)) kk)
  have h_plus : find_binary_op ('=' :: ' ' :: ds) "+".data = none :=
    find_binary_op_none _ _ (fun kk =>
      hasPre_drop_false_head _ '+' [] (hnm '+' (by decide) (by decide) (by decide)) kk)
  have h_minus : find_binary_op ('=' :: ' ' :: ds) "-".data = none :=
    find_binary_op_none _ _ (fun kk =>
      hasPre_drop_false_head _ '-' [] (hnm '-' (by decide) (by decide) (by decide)) kk)
  have h_star : find_binary_op ('=' :: ' ' :: ds) "*".data = none :=
    find_binary_op_none _ _ (fun kk =>
      hasPre_drop_false_head _ '*' [] (hnm '*' (by decide) (by decide) (by decide)) kk)
  have h_fdiv : find_binary_op ('=' :: ' ' :: ds) "//".data = none :=
    find_binary_op_none _ _ (fun kk =>
      hasPre_drop_false_head _ '/' ['/'] (hnm '/' (by decide) (by decide) (by decide)) kk)
  have h_div : find_binary_op ('=' :: ' ' :: ds) "/".data = none :=
    find_binary_op_none _ _ (fun kk =>
      hasPre_drop_false_head _ '/' [] (hnm '/' (by decide) (by decide) (by decide)) kk)
  have h_mod : find_binary_op ('=' :: ' ' :: ds) "%".data = none :=
    find_binary_op_none _ _ (fun kk =>
      hasPre_drop_false_head _ '%' [] (hnm '%' (by decide) (by decide) (by decide)) kk)
  have h_pow : find_binary_op ('=' :: ' ' :: ds) "**".data = none :=
    find_binary_op_none _ _ (fun kk =>
      hasPre_drop_false_head _ '*' ['*'] (hnm '*' (by decide) (by decide) (by decide)) kk)
  have h_and : find_binary_op ('=' :: ' ' :: ds) " and ".data = none :=
    find_binary_op_none _ _ (fun kk =>
      hasPre_drop_false_second _ ' ' 'a' ['n', 'd', ' ']
        (hnm 'a' (by decide) (by decide) (by decide)) kk)
  have h_or : find_binary_op ('=' :: ' ' :: ds) " or ".data = none :=
    find_binary_op_none _ _ (fun kk =>
      hasPre_drop_false_second _ ' ' 'o' ['r', ' ']
        (hnm 'o' (by decide) (by decide) (by decide)) kk)
  have h_tern : find_ternary ('=' :: ' ' :: ds) = none :=
    find_ternary_none _ (fun kk =>
      hasPre_drop_false_second _ ' ' 'i' ['f', ' ']
        (hnm 'i' (by decide) (by decide) (by decide)) kk)
  -- no bracket, no dot
  have h_dotmem : '.' ∉ ('=' :: ' ' :: ds) :=
    hnm '.' (by decide) (by decide) (by decide)
  have h_dot : containsSub ['.'] ('=' :: ' ' :: ds) = false :=
    containsSub_single_false _ _ h_dotmem
  have h_brk : containsSub ['['] ('=' :: ' ' :: ds) = false :=
    containsSub_single_false _ _ (hnm '[' (by decide) (by decide) (by decide))
  have h_float : isFloatLit ('=' :: ' ' :: ds) = false :=
    isFloatLit_none_aux _ (indexOfChar_none _ _ h_dotmem)
  -- strip fixpoints
  have hdig_last : ∀ c : Char, ds.getLast? = some c → isPySpace c = false :=
    fun c hc =>
      isDigit_not_pyspace c (List.all_eq_true.mp hdig c (mem_of_getLast?_eq ds c hc))
  have hstripE : pyStrip ('=' :: ' ' :: ds) = ('=' :: ' ' :: ds) := by
    refine pyStrip_fix _ ?_ ?_
    · intro c hc
      rw [List.head?_cons] at hc
      cases hc
      decide
    · intro c hc
      obtain ⟨d, ds', hds⟩ := List.exists_cons_of_ne_nil hne
      rw [hds] at hc
      simp only [List.getLast?_cons_cons] at hc
      exact hdig_last c (by rw [hds]; exact hc)
  have hstripS :
      pyStrip ('x' :: ' ' :: '=' :: '=' :: ' ' :: ds) =
        ('x' :: ' ' :: '=' :: '=' :: ' ' :: ds) := by
    refine pyStrip_fix _ ?_ ?_
    · intro c hc
      rw [List.head?_cons] at hc
      cases hc
      decide
    · intro c hc
      obtain ⟨d, ds', hds⟩ := List.exists_cons_of_ne_nil hne
      rw [hds] at hc
      simp only [List.getLast?_cons_cons] at hc
      exact hdig_last c (by rw [hds]; exact hc)
  -- the literal tests of `_eval` all fail on `= <digits>`
  have htrue : ('=' :: ' ' :: ds) ≠ "true".data := by
    intro hh
    rw [show ("true".data : List Char) = ['t', 'r', 'u', 'e'] from rfl] at hh
    injection hh with h1 _
    exact absurd h1 (by decide)
  have hfalse : ('=' :: ' ' :: ds) ≠ "false".data := by
    intro hh
    rw [show ("false".data : List Char) = ['f', 'a', 'l', 's', 'e'] from rfl] at hh
    injection hh with h1 _
    exact absurd h1 (by decide)
  -- climb the evaluator, one fuel unit per stage
  have t1 : interp (k + 1) σ (.evalFinQ3 ('=' :: ' ' :: ds)) =
      some (σ, .ok (.v (.str ('=' :: ' ' :: ds)))) :=
    evalFin3_var_miss k σ _ henv
  have t2 : interp (k + 2) σ (.evalFinQ2 ('=' :: ' ' :: ds)) =
      some (σ, .ok (.v (.str ('=' :: ' ' :: ds)))) := by
    rw [show k + 2 = (k + 1) + 1 from rfl]
    exact evalFin2_skip (k + 1) σ _ _ h_dot t1
  have t3 : interp (k + 3) σ (.evalFinQ ('=' :: ' ' :: ds)) =
      some (σ, .ok (.v (.str ('=' :: ' ' :: ds)))) := by
    rw [show k + 3 = (k + 2) + 1 from rfl]
    exact evalFin_skip (k + 2) σ _ _ h_brk t2
  have t4 : interp (k + 4) σ (.binChainQ .pw [] ('=' :: ' ' :: ds)) =
      some (σ, .ok (.v (.str ('=' :: ' ' :: ds)))) := by
    rw [show k + 4 = (k + 3) + 1 from rfl]
    exact binChain_done_pw (k + 3) σ _ _ t3
  have t5 : interp (k + 5) σ (.binChainQ .pw ["**".data] ('=' :: ' ' :: ds)) =
      some (σ, .ok (.v (.str ('=' :: ' ' :: ds)))) := by
    rw [show k + 5 = (k + 4) + 1 from rfl]
    exact binChain_miss (k + 4) σ .pw "**".data [] _ _ h_pow t4
  have t6 : interp (k + 6) σ (.binChainQ .mul [] ('=' :: ' ' :: ds)) =
      some (σ, .ok (.v (.str ('=' :: ' ' :: ds)))) := by
    rw [show k + 6 = (k + 5) + 1 from rfl]
    exact binChain_done_mul (k + 5) σ _ _ t5
  have t7 : interp (k + 7) σ (.binChainQ .mul ["%".data] ('=' :: ' ' :: ds)) =
      some (σ, .ok (.v (.str ('=' :: ' ' :: ds)))) := by
    rw [show k + 7 = (k + 6) + 1 from rfl]
    exact binChain_miss (k + 6) σ .mul "%".data [] _ _ h_mod t6
  have t8 : interp (k + 8) σ
      (.binChainQ .mul ["/".data, "%".data] ('=' :: ' ' :: ds)) =
      some (σ, .ok (.v (.str ('=' :: ' ' :: ds)))) := by
    rw [show k + 8 = (k + 7) + 1 from rfl]
    exact binChain_miss (k + 7) σ .mul "/".data ["%".data] _ _ h_div t7
  have t9 : interp (k + 9) σ
      (.binChainQ .mul ["//".data, "/".data, "%".data] ('=' :: ' ' :: ds)) =
      some (σ, .ok (.v (.str ('=' :: ' ' :: ds)))) := by
    rw [show k + 9 = (k + 8) + 1 from rfl]
    exact binChain_miss (k + 8) σ .mul "//".data ["/".data, "%".data] _ _ h_fdiv t8
  have t10 : interp (k + 10) σ
      (.binChainQ .mul ["*".data, "//".data, "/".data, "%".data] ('=' :: ' ' :: ds)) =
      some (σ, .ok (.v (.str ('=' :: ' ' :: ds)))) := by
    rw [show k + 10 = (k + 9) + 1 from rfl]
    exact binChain_miss (k + 9) σ .mul "*".data ["//".data, "/".data, "%".data] _ _ h_star t9
  have t11 : interp (k + 11) σ (.binChainQ .add [] ('=' :: ' ' :: ds)) =
      some (σ, .ok (.v (.str ('=' :: ' ' :: ds)))) := by
    rw [show k + 11 = (k + 10) + 1 from rfl]
    exact binChain_done_add (k + 10) σ _ _ t10
  have t12 : interp (k + 12) σ (.binChainQ .add ["-".data] ('=' :: ' ' :: ds)) =
      some (σ, .ok (.v (.str ('=' :: ' ' :: ds)))) := by
    rw [show k + 12 = (k + 11) + 1 from rfl]
    exact binChain_miss (k + 11) σ .add "-".data [] _ _ h_minus t11
  have t13 : interp (k + 13) σ
      (.binChainQ .add ["+".data, "-".data] ('=' :: ' ' :: ds)) =
      some (σ, .ok (.v (.str ('=' :: ' ' :: ds)))) := by
    rw [show k + 13 = (k + 12) + 1 from rfl]
    exact binChain_miss (k + 12) σ .add "+".data ["-".data] _ _ h_plus t12
  have t14 : interp (k + 14) σ (.binChainQ .cmp [] ('=' :: ' ' :: ds)) =
      some (σ, .ok (.v (.str ('=' :: ' ' :: ds)))) := by
    rw [show k + 14 = (k + 13) + 1 from rfl]
    exact binChain_done_cmp (k + 13) σ _ _ t13
  have t15 : interp (k + 15) σ (.binChainQ .cmp ["<".data] ('=' :: ' ' :: ds)) =
      some (σ, .ok (.v (.str ('=' :: ' ' :: ds)))) := by
    rw [show k + 15 = (k + 14) + 1 from rfl]
    exact binChain_miss (k + 14) σ .cmp "<".data [] _ _ h_lt t14
  have t16 : interp (k + 16) σ
      (.binChainQ .cmp [">".data, "<".data] ('=' :: ' ' :: ds)) =
      some (σ, .ok (.v (.str ('=' :: ' ' :: ds)))) := by
    rw [show k + 16 = (k + 15) + 1 from rfl]
    exact binChain_miss (k + 15) σ .cmp ">".data ["<".data] _ _ h_gt t15
  have t17 : interp (k + 17) σ
      (.binChainQ .cmp ["<=".data, ">".data, "<".data] ('=' :: ' ' :: ds)) =
      some (σ, .ok (.v (.str ('=' :: ' ' :: ds)))) := by
    rw [show k + 17 = (k + 16) + 1 from rfl]
    exact binChain_miss (k + 16) σ .cmp "<=".data [">".data, "<".data] _ _ h_le t16
  have t18 : interp (k + 18) σ
      (.binChainQ .cmp [">=".data, "<=".data, ">".data, "<".data] ('=' :: ' ' :: ds)) =
      some (σ, .ok (.v (.str ('=' :: ' ' :: ds)))) := by
    rw [show k + 18 = (k + 17) + 1 from rfl]
    exact binChain_miss (k + 17) σ .cmp ">=".data ["<=".data, ">".data, "<".data] _ _ h_ge t17
  have t19 : interp (k + 19) σ
      (.binChainQ .cmp ["!=".data, ">=".data, "<=".data, ">".data, "<".data]
        ('=' :: ' ' :: ds)) =
      some (σ, .ok (.v (.str ('=' :: ' ' :: ds)))) := by
    rw [show k + 19 = (k + 18) + 1 from rfl]
    exact binChain_miss (k + 18) σ .cmp "!=".data
      [">=".data, "<=".data, ">".data, "<".data] _ _ h_ne t18
  have t20 : interp (k + 20) σ
      (.binChainQ .cmp
        ["==".data, "!=".data, ">=".data, "<=".data, ">".data, "<".data]
        ('=' :: ' ' :: ds)) =
      some (σ, .ok (.v (.str ('=' :: ' ' :: ds)))) := by
    rw [show k + 20 = (k + 19) + 1 from rfl]
    exact binChain_miss (k + 19) σ .cmp "==".data
      ["!=".data, ">=".data, "<=".data, ">".data, "<".data] _ _ h_eqeq t19
  have t21 : interp (k + 21) σ (.evalTailQ ('=' :: ' ' :: ds)) =
      some (σ, .ok (.v (.str ('=' :: ' ' :: ds)))) := by
    rw [show k + 21 = (k + 20) + 1 from rfl]
    exact evalTail_skip (k + 20) σ _ _ h_tern h_and h_or t20
  have t22 : interp (k + 22) σ (.evalQ ('=' :: ' ' :: ds)) =
      some (σ, .ok (.v (.str ('=' :: ' ' :: ds)))) := by
    rw [show k + 22 = (k + 21) + 1 from rfl]
    exact evalQ_fallthrough (k + 21) σ _ _ hstripE rfl rfl htrue hfalse rfl
      h_float rfl rfl rfl rfl rfl rfl t21
  rw [show k + 23 = (k + 22) + 1 from rfl]
  exact stmt_assign_eval (k + 22) σ σ
    ('x' :: ' ' :: '=' :: '=' :: ' ' :: ds) ['x'] ('=' :: ' ' :: ds)
    (.str ('=' :: ' ' :: ds))
    hstripS rfl rfl rfl rfl rfl rfl rfl rfl rfl rfl hstripE t22

/-- Witness for C10: the general conjunct applied at `ds = "5"`, the initial
state and minimal fuel `23`. -/
theorem c10_witness :
    interp 23 St.init (.stmtQ ('x' :: ' ' :: '=' :: '=' :: ' ' :: ['5'])) =
      some ({ St.init with
                env := alSet ['x'] (.str ('=' :: ' ' :: ['5'])) St.init.env },
            .ok (.v (.str ('=' :: ' ' :: ['5'])))) :=
  c10_spaced_eq_assignment.1 ['5'] St.init 0 (by decide) (by decide) rfl

end Cherry
